import Mathlib

/-!
Verification of the conversational grounding engine of the uconnect
chatbot backend (TypeScript). Strings are modelled as lists of characters
(`Str`); each definition is a shallow embedding of the correspondingly
named function of the source, with the JavaScript string primitives
(toLowerCase, normalize("NFD"), trim, slice, split, indexOf, regex tests)
modelled explicitly over `Str`.
-/

/-- Strings of the embedded program: JavaScript strings as char lists
(all characters of interest are in the basic plane, so one char equals
one UTF-16 code unit and `List.length` models `String.length`). -/
abbrev Str := List Char

/-- JavaScript whitespace characters (the fragment relevant to this code
base: space, tab, newline, carriage return, vertical tab, form feed). -/
def isJsWs (c : Char) : Bool :=
  c = ' ' || c = '\t' || c = '\n' || c = '\x0d' || c = '\x0b' || c = '\x0c'

/-- Combining diacritical marks, the range stripped by
`replace(/[̀-ͯ]/g, "")` in `normalizeText`. -/
def isCombining (c : Char) : Bool :=
  0x300 ≤ c.toNat && c.toNat ≤ 0x36f

/-- Pairs of `String.prototype.toLowerCase` over the characters this
code base manipulates: ASCII letters and the accented Spanish capitals. -/
def lowerPairs : List (Char × Char) :=
  [('A', 'a'), ('B', 'b'), ('C', 'c'), ('D', 'd'), ('E', 'e'), ('F', 'f'),
   ('G', 'g'), ('H', 'h'), ('I', 'i'), ('J', 'j'), ('K', 'k'), ('L', 'l'),
   ('M', 'm'), ('N', 'n'), ('O', 'o'), ('P', 'p'), ('Q', 'q'), ('R', 'r'),
   ('S', 's'), ('T', 't'), ('U', 'u'), ('V', 'v'), ('W', 'w'), ('X', 'x'),
   ('Y', 'y'), ('Z', 'z'),
   ('Á', 'á'), ('É', 'é'), ('Í', 'í'), ('Ó', 'ó'), ('Ú', 'ú'),
   ('Ü', 'ü'), ('Ñ', 'ñ')]

/-- Character-level model of `toLowerCase`: characters outside the table
are left unchanged. -/
def jsToLower (c : Char) : Char :=
  (lowerPairs.lookup c).getD c

/-- Combining acute accent U+0301. -/
def accMark : Char := Char.ofNat 0x301

/-- Combining diaeresis U+0308. -/
def diaMark : Char := Char.ofNat 0x308

/-- Combining tilde U+0303. -/
def tilMark : Char := Char.ofNat 0x303

/-- Canonical decompositions (`normalize("NFD")`) of the precomposed
characters this code base manipulates; other characters decompose to
themselves. -/
def nfdPairs : List (Char × Str) :=
  [('á', ['a', accMark]), ('é', ['e', accMark]), ('í', ['i', accMark]),
   ('ó', ['o', accMark]), ('ú', ['u', accMark]), ('ü', ['u', diaMark]),
   ('ñ', ['n', tilMark]),
   ('Á', ['A', accMark]), ('É', ['E', accMark]), ('Í', ['I', accMark]),
   ('Ó', ['O', accMark]), ('Ú', ['U', accMark]), ('Ü', ['U', diaMark]),
   ('Ñ', ['N', tilMark])]

/-- Character-level model of NFD decomposition. -/
def nfdChar (c : Char) : Str :=
  (nfdPairs.lookup c).getD [c]

/-- Model of `String.prototype.trim` on the front of the string. -/
def trimLeft (s : Str) : Str := s.dropWhile isJsWs

/-- Model of `String.prototype.trim` on the back of the string. -/
def trimRight (s : Str) : Str := (s.reverse.dropWhile isJsWs).reverse

/-- Model of `String.prototype.trim`. -/
def jsTrim (s : Str) : Str := trimRight (trimLeft s)

/-- Embedding of `normalizeText` (src/utils/text.utils.ts): lower-case,
NFD-decompose, strip the combining marks, trim. -/
def normalizeText (s : Str) : Str :=
  jsTrim (((s.map jsToLower).flatMap nfdChar).filter (fun c => !isCombining c))

/-- Embedding of `normalizeForOCR` (src/utils/text.utils.ts): like
`normalizeText` but every character outside `[a-z0-9\s]` becomes a
space and whitespace runs collapse to a single space. -/
def isOcrKeep (c : Char) : Bool :=
  ('a' ≤ c && c ≤ 'z') || ('0' ≤ c && c ≤ '9') || isJsWs c

/-- Collapse every maximal whitespace run to one space
(model of `replace(/\s+/g, " ")`); the fuel argument makes the
recursion structural (every step consumes at least one character, so
one unit of fuel per character suffices). -/
def collapseWsF : Nat → Str → Str
  | 0, _ => []
  | _, [] => []
  | fuel + 1, c :: rest =>
    if isJsWs c then ' ' :: collapseWsF fuel (rest.dropWhile isJsWs)
    else c :: collapseWsF fuel rest

def collapseWs (s : Str) : Str := collapseWsF (s.length + 1) s

def normalizeForOCR (s : Str) : Str :=
  jsTrim (collapseWs
    ((((s.map jsToLower).flatMap nfdChar).filter (fun c => !isCombining c)).map
      (fun c => if isOcrKeep c then c else ' ')))

/-- The word `w` occurs in `s` starting at index `i`. -/
def litAt (w s : Str) (i : Nat) : Bool := w.isPrefixOf (s.drop i)

/-- Model of `String.prototype.includes`. -/
def strIncludes (needle hay : Str) : Bool :=
  (List.range (hay.length + 1)).any (litAt needle hay)

/-- Model of `String.prototype.indexOf`: index of the first occurrence,
or -1. -/
def jsIndexOf (hay needle : Str) : Int :=
  match (List.range (hay.length + 1)).find? (litAt needle hay) with
  | some i => (i : Int)
  | none => -1

/-- Model of `s.slice(0, e)` with JavaScript index semantics: a negative
end counts from the end of the string. -/
def jsSliceTo (s : Str) (e : Int) : Str :=
  if e < 0 then s.take ((s.length : Int) + e).toNat else s.take e.toNat

/-- Model of `s.slice(a, b)` for non-negative indices. -/
def jsSlice (s : Str) (a b : Nat) : Str := (s.take b).drop a

/-- Model of `split(/\s+/)` (JavaScript semantics: an empty piece
appears when the string starts or ends with a separator run, and the
empty string splits to one empty piece). -/
def splitWsAux : Nat → Str → Str → List Str
  | 0, _, acc => [acc.reverse]
  | _, [], acc => [acc.reverse]
  | fuel + 1, c :: rest, acc =>
    if isJsWs c then acc.reverse :: splitWsAux fuel (rest.dropWhile isJsWs) []
    else splitWsAux fuel rest (c :: acc)

def jsSplitWs (s : Str) : List Str := splitWsAux (s.length + 1) s []

/-- Model of `split(/\n\n+/)`: split on maximal runs of two or more
newlines. -/
def splitNNAux : Nat → Str → Str → List Str
  | 0, _, acc => [acc.reverse]
  | _, [], acc => [acc.reverse]
  | fuel + 1, c :: rest, acc =>
    if c = '\n' && rest.head? = some '\n' then
      acc.reverse :: splitNNAux fuel (rest.dropWhile (fun d => d = '\n')) []
    else splitNNAux fuel rest (c :: acc)

def jsSplitNN (s : Str) : List Str := splitNNAux (s.length + 1) s []

/-- Number of maximal digit runs: model of `(s.match(/\d+/g) || []).length`. -/
def countDigitRunsF : Nat → Str → Nat
  | 0, _ => 0
  | _, [] => 0
  | fuel + 1, c :: rest =>
    if c.isDigit then 1 + countDigitRunsF fuel (rest.dropWhile Char.isDigit)
    else countDigitRunsF fuel rest

def countDigitRuns (s : Str) : Nat := countDigitRunsF (s.length + 1) s

/-- Stable insertion step: `x` is placed before the first element whose
key is not smaller or equal, so elements inserted earlier stay in front
of later elements with an equal key. -/
def insertByKey (key : α → Int) (x : α) : List α → List α
  | [] => [x]
  | y :: ys => if key x ≤ key y then x :: y :: ys else y :: insertByKey key x ys

/-- Stable sort by an integer key, ascending: the model of
`Array.prototype.sort` with comparator `(a, b) => key(a) - key(b)`
(JavaScript sort is stable). -/
def sortByKeyAsc (key : α → Int) : List α → List α
  | [] => []
  | x :: xs => insertByKey key x (sortByKeyAsc key xs)

/-- Model of `Array.prototype.join(sep)`. -/
def joinSep (sep : Str) : List Str → Str
  | [] => []
  | [x] => x
  | x :: y :: rest => x ++ sep ++ joinSep sep (y :: rest)

/-- Insert preserving first-occurrence order (model of adding to a
JavaScript `Set`, whose iteration order is insertion order). -/
def insertUnique [DecidableEq α] (l : List α) (x : α) : List α :=
  if x ∈ l then l else l ++ [x]

/-- Model of `[...new Set(xs)]`. -/
def dedupList [DecidableEq α] (l : List α) : List α :=
  l.foldl insertUnique []

/-- The stop words filtered out by `extractKeywords`
(src/utils/text.utils.ts). -/
def stopWords : List Str :=
  (["el", "la", "los", "las", "un", "una", "unos", "unas", "de", "del",
    "al", "a", "en", "con", "por", "para", "que", "cual", "cuales",
    "como", "donde", "cuando", "es", "son", "tiene", "tienen", "hay",
    "puede", "pueden", "me", "te", "se", "nos", "les", "lo", "le", "y",
    "o", "pero", "si", "no", "mas", "menos", "este", "esta", "estos",
    "estas", "ese", "esa", "mi", "tu", "su", "mis", "tus", "sus",
    "quiero", "necesito", "busco", "quisiera", "podria", "puedo",
    "saber", "conocer", "informacion", "sobre", "acerca"]).map String.toList

/-- A `\w` character: ASCII letter, digit or underscore. -/
def isWordChar (c : Char) : Bool :=
  ('a' ≤ c && c ≤ 'z') || ('A' ≤ c && c ≤ 'Z') || ('0' ≤ c && c ≤ '9') || c = '_'

/-- Embedding of `extractKeywords` (src/utils/text.utils.ts): normalize,
replace `[^\w\s]` by spaces, split on whitespace, keep the words longer
than two characters that are not stop words, and deduplicate keeping the
first occurrence. -/
def extractKeywords (text : Str) : List Str :=
  dedupList
    ((jsSplitWs ((normalizeText text).map
        (fun c => if isWordChar c || isJsWs c then c else ' '))).filter
      (fun w => 2 < w.length && !(stopWords.contains w)))

/-- One step of the synonym expansion of `extractRelevantChunks`
(src/utils/text.utils.ts lines 408-457): the keyword itself, plus the
hand-built variants for the terms the table recognizes. -/
def expandOne (acc0 : List Str) (kw : Str) : List Str :=
  let acc := insertUnique acc0 kw
  let acc := if strIncludes (("objetivo").toList) kw then
    ((["objetivos", "meta", "metas", "proposito", "fin"]).map String.toList).foldl insertUnique acc
    else acc
  let acc := if strIncludes (("competencia").toList) kw then
    ((["competencias", "habilidad", "habilidades", "capacidad"]).map String.toList).foldl insertUnique acc
    else acc
  let acc := if strIncludes (("perfil").toList) kw then
    ((["perfil", "profesional", "ocupacional", "egresado"]).map String.toList).foldl insertUnique acc
    else acc
  let acc := if strIncludes (("mision").toList) kw || strIncludes (("vision").toList) kw then
    ((["mision", "vision", "proposito"]).map String.toList).foldl insertUnique acc
    else acc
  let acc := if strIncludes (("campo").toList) kw then
    ((["campos", "ocupacional", "laboral", "trabajo"]).map String.toList).foldl insertUnique acc
    else acc
  let acc := if strIncludes (("linea").toList) kw || strIncludes (("investigacion").toList) kw then
    ((["lineas", "investigacion", "investigativas", "investigar"]).map String.toList).foldl insertUnique acc
    else acc
  let acc := if strIncludes (("principio").toList) kw then
    ((["principios", "valores", "valor"]).map String.toList).foldl insertUnique acc
    else acc
  let acc := if strIncludes (("valor").toList) kw || strIncludes (("valores").toList) kw then
    ((["valores", "principios", "principio"]).map String.toList).foldl insertUnique acc
    else acc
  acc

/-- The expanded keyword set, in `Set` insertion order. -/
def expandKeywords (queryKeywords : List Str) : List Str :=
  queryKeywords.foldl expandOne []

/-- Character class `[A-ZÑÁÉÍÓÚ]` of the section-title pattern. -/
def isUpperSec (c : Char) : Bool :=
  ('A' ≤ c && c ≤ 'Z') || c = 'Ñ' || c = 'Á' || c = 'É' || c = 'Í' || c = 'Ó' || c = 'Ú'

/-- Character class `[\d\.]`. -/
def isDigitDot (c : Char) : Bool := c.isDigit || c = '.'

/-- Character class `[A-ZÑÁÉÍÓÚ\s]`. -/
def isSecB (c : Char) : Bool := isUpperSec c || isJsWs c

/-- Length of the maximal run of characters satisfying `p` starting at
index `i`. -/
def runLen (p : Char → Bool) (s : Str) (i : Nat) : Nat :=
  ((s.drop i).takeWhile p).length

/-- The character at index `i`, if any. -/
def charAt (s : Str) (i : Nat) : Option Char := (s.drop i).head?

/-- First alternative of the section-title pattern of
`extractRelevantChunks`: digits or dots, whitespace, one capital, at
least five more characters to the end of the line, followed by a
newline. Returns the length of the match. The adjacent character
classes are disjoint, so the greedy quantifiers are deterministic. -/
def secAltA (s : Str) (p : Nat) : Option Nat :=
  let a := runLen isDigitDot s p
  if a = 0 then none else
  let b := runLen isJsWs s (p + a)
  if b = 0 then none else
  match charAt s (p + a + b) with
  | none => none
  | some c =>
    if isUpperSec c then
      let r := runLen (fun d => d ≠ '\n') s (p + a + b + 1)
      if 5 ≤ r && charAt s (p + a + b + 1 + r) == some '\n'
      then some (a + b + 1 + r) else none
    else none

/-- Second alternative: ten or more capitals or whitespace characters,
greedy, backtracking until the lookahead sees a newline. -/
def secAltB (s : Str) (p : Nat) : Option Nat :=
  let u := runLen isSecB s p
  (List.range (u + 1)).reverse.find?
    (fun k => 10 ≤ k && charAt s (p + k) == some '\n')

/-- Body of the section-title pattern, preferring the first alternative
as the JavaScript engine does. -/
def secBody (s : Str) (p : Nat) : Option Nat :=
  match secAltA s p with
  | some n => some n
  | none => secAltB s p

/-- One match attempt of the full pattern at index `i`: the leading
group matches either a zero-width multiline start of line or a literal
newline. Returns the full match length (including a consumed newline). -/
def secMatchAt (s : Str) (i : Nat) : Option Nat :=
  if i = 0 || charAt s (i - 1) == some '\n' then
    match secBody s i with
    | some n => some n
    | none =>
      if charAt s i == some '\n' then (secBody s (i + 1)).map (· + 1) else none
  else
    if charAt s i == some '\n' then (secBody s (i + 1)).map (· + 1) else none

/-- First match at or after index `start`: `(index, length)`. -/
def secFindFrom (s : Str) (start : Nat) : Option (Nat × Nat) :=
  ((List.range (s.length + 1 - start)).map (· + start)).findSome?
    (fun i => (secMatchAt s i).map (fun n => (i, n)))

/-- Collect the matches the way `matchAll` iterates: each search resumes
past the end of the previous match (every match is at least seven
characters long, so the position strictly advances). -/
def secCollect (s : Str) : Nat → Nat → List (Nat × Nat)
  | 0, _ => []
  | fuel + 1, pos =>
    match secFindFrom s pos with
    | none => []
    | some (i, n) => (i, n) :: secCollect s fuel (i + n)

/-- All matches of the section-title pattern, as `matchAll` yields them. -/
def sectionMatches (s : Str) : List (Nat × Nat) :=
  secCollect s (s.length + 1) 0

/-- Segmentation option 1 of `extractRelevantChunks`: only used when the
pattern matched more than twice; each segment runs from one title start
to the next (the source computes `contentStart` but never uses it) and
is kept when longer than 150 characters. -/
def sectionParagraphs (text : Str) : List Str :=
  let ms := sectionMatches text
  if 2 < ms.length then
    (List.range ms.length).filterMap (fun i =>
      match ms.get? i with
      | none => none
      | some (st, _) =>
        let e := match ms.get? (i + 1) with
          | some m2 => m2.1
          | none => text.length
        let sec := jsTrim (jsSlice text st e)
        if 150 < sec.length then some sec else none)
  else []

/-- Segmentation option 2: blank-line-delimited paragraphs longer than
50 characters. -/
def blankLineParagraphs (text : Str) : List Str :=
  ((jsSplitNN text).map jsTrim).filter (fun p => 50 < p.length)

/-- Segmentation option 3: 800-character windows with 200-character
overlap, kept when the trimmed window is longer than 100 characters. -/
def windowChunks (text : Str) : List Str :=
  ((List.range ((text.length + 599) / 600)).map (· * 600)).filterMap (fun i =>
    let chunk := jsTrim (jsSlice text i (i + 800))
    if 100 < chunk.length then some chunk else none)

/-- The three-stage segmentation of `extractRelevantChunks`
(src/utils/text.utils.ts lines 461-510): titles, then blank-line
paragraphs (only adopted when more than three survive), then fixed
windows appended when fewer than three segments exist so far. -/
def segmentText (text : Str) : List Str :=
  let p1 := sectionParagraphs text
  let p2 :=
    if p1.length < 3 then
      let d := blankLineParagraphs text
      if 3 < d.length then d else p1
    else p1
  if p2.length < 3 then p2 ++ windowChunks text else p2

/-- A scored segment (`ScoredChunk` in src/utils/text.utils.ts). -/
structure ScoredChunk where
  text : Str
  score : Int
  matchedKeywords : List Str
deriving DecidableEq, Repr

/-- Match of the whitespace-flexible keyword pattern at index `i`
(`keyword.replace(/\s+/g, "\\s+")`): literal parts separated by one or
more whitespace characters. Parts contain no whitespace, so the greedy
runs are deterministic. Returns the end index. -/
def flexMatchAt (parts : List Str) (s : Str) (i : Nat) : Option Nat :=
  match parts with
  | [] => some i
  | [w] => if litAt w s i then some (i + w.length) else none
  | w :: rest =>
    if litAt w s i then
      let j := i + w.length
      let b := runLen isJsWs s j
      if b = 0 then none else flexMatchAt rest s (j + b)
    else none

/-- Non-overlapping global match count, scanning left to right the way
a `g`-flagged regex advances `lastIndex` (a zero-length match advances
by one). -/
def countFlexAux (parts : List Str) (s : Str) : Nat → Nat → Nat
  | 0, _ => 0
  | fuel + 1, i =>
    if s.length < i then 0 else
    match flexMatchAt parts s i with
    | some j => 1 + countFlexAux parts s fuel (if j = i then i + 1 else j)
    | none => countFlexAux parts s fuel (i + 1)

/-- The non-empty whitespace-separated parts of a pattern. -/
def patParts (pat : Str) : List Str :=
  (jsSplitWs pat).filter (fun w => w ≠ [])

/-- Model of `(normalizedParagraph.match(regex) || []).length` for the
flexible keyword pattern; an empty pattern matches at every position. -/
def countFlexible (pat s : Str) : Nat :=
  countFlexAux (patParts pat) s (s.length + 2) 0

/-- All characters in `s` between indices `a` and `b` differ from a
newline (the gap that `.{0,50}` may cross). -/
def noNlRange (s : Str) (a b : Nat) : Bool :=
  (jsSlice s a b).all (fun c => c ≠ '\n')

/-- One direction of the proximity pattern `k1.{0,50}k2`. -/
def proximityHitOne (k1 k2 s : Str) : Bool :=
  (List.range (s.length + 1)).any (fun p =>
    litAt k1 s p && (List.range 51).any (fun d =>
      noNlRange s (p + k1.length) (p + k1.length + d) &&
        litAt k2 s (p + k1.length + d)))

/-- Model of testing `k1.{0,50}k2|k2.{0,50}k1`. -/
def proximityHit (k1 k2 s : Str) : Bool :=
  proximityHitOne k1 k2 s || proximityHitOne k2 k1 s

/-- The keyword loop of the chunk scorer: +10 per occurrence, recording
each matched keyword. -/
def keywordScore (keywords : List Str) (np : Str) : Int × List Str :=
  keywords.foldl (fun acc kw =>
    let cnt := countFlexible (normalizeForOCR kw) np
    if 0 < cnt then (acc.1 + 10 * (cnt : Int), acc.2 ++ [kw]) else acc)
    ((0 : Int), ([] : List Str))

/-- Number of index pairs `i < j` of keywords found in proximity; the
source adds 50000 once per such pair. -/
def proximityPairs (keywords : List Str) (np : Str) : Nat :=
  ((List.range keywords.length).map (fun i =>
    ((List.range keywords.length).filter (fun j => i < j &&
      proximityHit (normalizeForOCR (keywords.getD i []))
        (normalizeForOCR (keywords.getD j [])) np)).length)).sum

/-- Embedding of the per-segment scorer of `extractRelevantChunks`
(src/utils/text.utils.ts lines 519-588). The float thresholds 0.6 and
0.3 are modelled as the exact rationals six and three tenths, written
with cross-multiplied integers. -/
def scoreChunk (keywords : List Str) (paragraph : Str) : ScoredChunk :=
  let np := normalizeForOCR paragraph
  let ks := keywordScore keywords np
  let s1 := ks.1 +
    (if 2 ≤ keywords.length then 50000 * (proximityPairs keywords np : Int) else 0)
  let s2 := s1 +
    (if min 3 keywords.length ≤ ks.2.length then 10000
     else if 6 * keywords.length ≤ 10 * ks.2.length then 1000 else 0)
  let s3 := s2 + (if 200 < paragraph.length && paragraph.length < 2000 then 5 else 0)
  let s4 := s3 + (if 300 < paragraph.length then 15 else 0)
  let wordCount := (jsSplitWs paragraph).length
  let numberCount := countDigitRuns paragraph
  let s5 := s4 -
    (if 3 * wordCount < 10 * numberCount && paragraph.length < 500 then 20 else 0)
  ⟨paragraph, s5, ks.2⟩

/-- The ellipsis marker appended by `truncateText`-style truncations. -/
def ellipsis : Str := ("...").toList

/-- Truncation of the first selected chunk
(src/utils/text.utils.ts lines 606-609). -/
def truncChunk (maxLength : Nat) (c : ScoredChunk) : ScoredChunk :=
  if maxLength < c.text.length
  then ⟨jsSliceTo c.text ((maxLength : Int) - 3) ++ ellipsis, c.score, c.matchedKeywords⟩
  else c

/-- The budget walk of `extractRelevantChunks`
(src/utils/text.utils.ts lines 598-625): stop at the first zero-score
chunk; when nothing is accumulated yet and the score exceeds 10 take
the chunk (truncated to the budget); otherwise take it only when the
running total plus its length plus four still fits; otherwise stop. -/
def selectChunks (maxLength : Nat) : List ScoredChunk → Nat → List ScoredChunk
  | [], _ => []
  | c :: rest, cur =>
    if c.score = 0 then []
    else if cur = 0 && 10 < c.score then
      let t := truncChunk maxLength c
      t :: selectChunks maxLength rest (cur + t.text.length)
    else if cur + (c.text.length + 4) ≤ maxLength then
      c :: selectChunks maxLength rest (cur + (c.text.length + 4))
    else []

/-- The visible separator used to join the selected chunks. -/
def sepStr : Str := ("\n\n---\n\n").toList

/-- The scored segments of a document against a query. -/
def scoredChunksOf (text query : Str) : List ScoredChunk :=
  (segmentText text).map (scoreChunk (expandKeywords (extractKeywords query)))

/-- The chunks selected by the budget walk, in descending score order
(the sort models the stable `sort((a, b) => b.score - a.score)`). -/
def selectedChunksOf (text query : Str) (maxLength : Nat) : List ScoredChunk :=
  selectChunks maxLength
    (sortByKeyAsc (fun c => -c.score) (scoredChunksOf text query)) 0

/-- The matched keywords accumulated over the selected chunks in
selection order (model of the `allMatchedKeywords` set). -/
def collectedKeywords (selected : List ScoredChunk) : List Str :=
  selected.foldl (fun acc c => c.matchedKeywords.foldl insertUnique acc) []

/-- The selected chunks re-sorted by the position of their text in the
source document (src/utils/text.utils.ts lines 636-641). -/
def orderedSelection (text query : Str) (maxLength : Nat) : List (Int × ScoredChunk) :=
  sortByKeyAsc (fun p => p.1)
    ((selectedChunksOf text query maxLength).map (fun c => (jsIndexOf text c.text, c)))

/-- Return value of `extractRelevantChunks`. -/
structure ChunkResult where
  text : Str
  foundKeywords : List Str
  chunksUsed : Nat
deriving DecidableEq, Repr

/-- Embedding of `extractRelevantChunks` (src/utils/text.utils.ts
lines 394-650). -/
def extractRelevantChunks (text query : Str) (maxLength : Nat) : ChunkResult :=
  if text.length ≤ maxLength then ⟨text, [], 1⟩
  else
    let selected := selectedChunksOf text query maxLength
    if selected = [] then
      ⟨jsSliceTo text ((maxLength : Int) - 3) ++ ellipsis, [], 0⟩
    else
      ⟨joinSep sepStr ((orderedSelection text query maxLength).map (fun p => p.2.text)),
        collectedKeywords selected, selected.length⟩

/-- Tokens of the regular-expression fragments this code base uses:
literals, one-character classes, optional characters or literals,
whitespace quantifiers, a repeated character class, and an end anchor. -/
inductive PatTok where
  | lit (w : Str)
  | cls (cs : List Char)
  | optChr (c : Char)
  | optLit (w : Str)
  | ws0
  | ws1
  | many0 (cs : List Char)
  | eos
deriving DecidableEq, Repr

/-- Existence of a match of the token sequence at the start of `s`
(the remainder of `s` is unconstrained unless the sequence ends in
`eos`). Since only a boolean test is needed, greedy versus lazy
quantifier behaviour is irrelevant. -/
def matchToksF : Nat → List PatTok → Str → Bool
  | 0, _, _ => false
  | _, [], _ => true
  | fuel + 1, PatTok.lit w :: ts, s => w.isPrefixOf s && matchToksF fuel ts (s.drop w.length)
  | fuel + 1, PatTok.cls cs :: ts, s =>
    match s with
    | [] => false
    | c :: s2 => cs.contains c && matchToksF fuel ts s2
  | fuel + 1, PatTok.optChr c :: ts, s =>
    matchToksF fuel ts s ||
      (match s with
       | c2 :: s2 => c2 = c && matchToksF fuel ts s2
       | [] => false)
  | fuel + 1, PatTok.optLit w :: ts, s =>
    matchToksF fuel ts s || (w.isPrefixOf s && w ≠ [] && matchToksF fuel ts (s.drop w.length))
  | fuel + 1, PatTok.ws0 :: ts, s =>
    matchToksF fuel ts s ||
      (match s with
       | c :: s2 => isJsWs c && matchToksF fuel (PatTok.ws0 :: ts) s2
       | [] => false)
  | fuel + 1, PatTok.ws1 :: ts, s =>
    (match s with
     | c :: s2 => isJsWs c && matchToksF fuel (PatTok.ws0 :: ts) s2
     | [] => false)
  | fuel + 1, PatTok.many0 cs :: ts, s =>
    matchToksF fuel ts s ||
      (match s with
       | c :: s2 => cs.contains c && matchToksF fuel (PatTok.many0 cs :: ts) s2
       | [] => false)
  | _ + 1, PatTok.eos :: _, s => s.isEmpty

def matchToks (ts : List PatTok) (s : Str) : Bool :=
  matchToksF (s.length + ts.length + 1) ts s

/-- Unanchored test: the token sequence matches at some index. -/
def anyPosMatch (toks : List PatTok) (s : Str) : Bool :=
  (List.range (s.length + 1)).any (fun i => matchToks toks (s.drop i))

/-- Shorthand for a literal token. -/
def plit (w : String) : PatTok := PatTok.lit w.toList

/-- Word-boundary test `\b w \b` with `\w = [A-Za-z0-9_]`. -/
def containsWordB (w s : Str) : Bool :=
  (List.range (s.length + 1)).any (fun i =>
    litAt w s i &&
    (decide (i = 0) ||
      !(match charAt s (i - 1) with
        | some c => isWordChar c
        | none => false)) &&
    (match charAt s (i + w.length) with
     | some c => !isWordChar c
     | none => true))

/-- Right-only word boundary `w\b`. -/
def containsRightB (w s : Str) : Bool :=
  (List.range (s.length + 1)).any (fun i =>
    litAt w s i &&
    (match charAt s (i + w.length) with
     | some c => !isWordChar c
     | none => true))

/-- Match of `w1.*w2.*...`: each literal in order, with no newline in
the gaps crossed by the dots. -/
def chainDotFrom : List Str → Str → Nat → Bool
  | [], _, _ => true
  | w :: ws, s, i =>
    ((List.range (s.length + 1 - i)).map (· + i)).any (fun p =>
      noNlRange s i p && litAt w s p && chainDotFrom ws s (p + w.length))

/-- Unanchored test of a `.*`-separated chain of literals. -/
def containsChainDot (ws : List Str) (s : Str) : Bool :=
  match ws with
  | [] => true
  | w :: rest =>
    (List.range (s.length + 1)).any (fun p =>
      litAt w s p && chainDotFrom rest s (p + w.length))

/-- The whitespace-or-punctuation class `[\s,!?.]` closing the greeting
pattern. -/
def saludoPunct : List Char :=
  [' ', '\t', '\n', '\x0d', '\x0b', '\x0c', ',', '!', '?', '.']

/-- Alternatives of the greeting pattern of `extractEntities`
(src/chatbot.ts line 215); the nested alternation
`buenas?\s*(tardes?|noches?)` is expanded distributively. The `i` flag
is immaterial because the tested string was already lower-cased by
`normalizeText`. -/
def saludoAlts : List (List PatTok) :=
  [[plit ("hola")],
   [plit ("bueno"), PatTok.optChr 's', PatTok.ws0, plit ("d"),
    PatTok.cls ['i', 'í'], plit ("a"), PatTok.optChr 's'],
   [plit ("buena"), PatTok.optChr 's', PatTok.ws0, plit ("tarde"), PatTok.optChr 's'],
   [plit ("buena"), PatTok.optChr 's', PatTok.ws0, plit ("noche"), PatTok.optChr 's'],
   [plit ("hey")],
   [plit ("saludo"), PatTok.optChr 's'],
   [plit ("qu"), PatTok.cls ['e', 'é'], PatTok.ws0, plit ("tal")]]

/-- Anchored greeting test `^(...)[\s,!?.]*$`: the whole message must be
a single greeting alternative followed only by whitespace or
punctuation. -/
def saludoTest (s : Str) : Bool :=
  saludoAlts.any (fun alt =>
    matchToks (alt ++ [PatTok.many0 saludoPunct, PatTok.eos]) s)

/-- Alternatives of the farewell pattern `^(adi[oó]s|chao|hasta\s*luego|bye|gracias|nos\s*vemos)`. -/
def despedidaAlts : List (List PatTok) :=
  [[plit ("adi"), PatTok.cls ['o', 'ó'], plit ("s")],
   [plit ("chao")],
   [plit ("hasta"), PatTok.ws0, plit ("luego")],
   [plit ("bye")],
   [plit ("gracias")],
   [plit ("nos"), PatTok.ws0, plit ("vemos")]]

/-- Anchored farewell test (src/chatbot.ts line 223). -/
def despedidaTest (s : Str) : Bool :=
  despedidaAlts.any (fun alt => matchToks alt s)

/-- One alternative of a keyword pattern of the program table:
either an unanchored token test, a word-bounded literal, or literals
chained by `.*`. -/
inductive KwPat where
  | toks (ts : List PatTok)
  | wordB (w : Str)
  | chain (ws : List Str)
deriving DecidableEq, Repr

def kwTest (s : Str) : KwPat → Bool
  | KwPat.toks ts => anyPosMatch ts s
  | KwPat.wordB w => containsWordB w s
  | KwPat.chain ws => containsChainDot ws s

/-- Unanchored literal containment as a pattern. -/
def contPat (w : String) : KwPat := KwPat.toks [plit w]

/-- Two literals separated by `\s+`. -/
def wsSeq (a b : String) : KwPat := KwPat.toks [plit a, PatTok.ws1, plit b]

/-- Pattern `ing\.?\s+w`. -/
def ingDot (w : String) : KwPat :=
  KwPat.toks [plit ("ing"), PatTok.optChr '.', PatTok.ws1, plit w]

/-- A `.*` chain built from plain strings. -/
def chainP (ws : List String) : KwPat := KwPat.chain (ws.map String.toList)

/-- The keyword-to-canonical-program table of
`buscarProgramaPorKeyword` (local-data service, ordered by
specificity; the first matching row wins). -/
def keywordMap : List (List KwPat × Str) :=
  [([wsSeq ("ingenieria") ("industrial")], ("INGENIERIA INDUSTRIAL").toList),
   ([KwPat.toks [plit ("ingenieria"), PatTok.ws1, plit ("de"), PatTok.ws1, plit ("sistemas")]],
     ("INGENIERIA DE SISTEMAS").toList),
   ([wsSeq ("ingenieria") ("mecanica")], ("INGENIERIA MECANICA").toList),
   ([wsSeq ("ingenieria") ("ambiental")], ("INGENIERIA AMBIENTAL").toList),
   ([KwPat.toks [plit ("ingenieria"), PatTok.ws1, plit ("de"), PatTok.ws1, plit ("alimentos")]],
     ("INGENIERIA DE ALIMENTOS").toList),
   ([wsSeq ("ingenieria") ("agronomica")], ("INGENIERIA AGRONOMICA").toList),
   ([wsSeq ("ingenieria") ("industri")], ("INGENIERIA INDUSTRIAL").toList),
   ([wsSeq ("ingenieria") ("sistem")], ("INGENIERIA DE SISTEMAS").toList),
   ([ingDot ("industri")], ("INGENIERIA INDUSTRIAL").toList),
   ([ingDot ("sistem")], ("INGENIERIA DE SISTEMAS").toList),
   ([ingDot ("mecanic")], ("INGENIERIA MECANICA").toList),
   ([ingDot ("ambient")], ("INGENIERIA AMBIENTAL").toList),
   ([ingDot ("alimento")], ("INGENIERIA DE ALIMENTOS").toList),
   ([ingDot ("agronom")], ("INGENIERIA AGRONOMICA").toList),
   ([contPat ("industria"), contPat ("industrial")], ("INGENIERIA INDUSTRIAL").toList),
   ([KwPat.wordB (("sistemas").toList)], ("INGENIERIA DE SISTEMAS").toList),
   ([KwPat.wordB (("mecanica").toList)], ("INGENIERIA MECANICA").toList),
   ([KwPat.wordB (("ambiental").toList)], ("INGENIERIA AMBIENTAL").toList),
   ([KwPat.wordB (("alimentos").toList)], ("INGENIERIA DE ALIMENTOS").toList),
   ([contPat ("agronomica"), contPat ("agronomia")], ("INGENIERIA AGRONOMICA").toList),
   ([contPat ("veterinaria"), contPat ("zootecnia")], ("MEDICINA VETERINARIA Y ZOOTECNIA").toList),
   ([contPat ("enfermeria")], ("ENFERMERIA").toList),
   ([KwPat.wordB (("derecho").toList)], ("DERECHO").toList),
   ([contPat ("finanzas"), wsSeq ("negocios") ("internacionales")],
     ("ADMINISTRACION EN FINANZAS Y NEGOCIOS INTERNACIONALES").toList),
   ([chainP ["administracion", "salud"], chainP ["salud", "administracion"]],
     ("ADMINISTRACION EN SALUD").toList),
   ([contPat ("acuicultura")], ("ACUICULTURA").toList),
   ([KwPat.wordB (("biologia").toList)], ("BIOLOGIA").toList),
   ([KwPat.wordB (("quimica").toList)], ("QUIMICA").toList),
   ([KwPat.wordB (("fisica").toList)], ("FISICA").toList),
   ([contPat ("estadistica")], ("ESTADISTICA").toList),
   ([contPat ("geografia")], ("GEOGRAFIA").toList),
   ([contPat ("matematicas")], ("MATEMATICAS").toList),
   ([contPat ("bacteriolog")], ("BACTERIOLOGIA").toList),
   ([contPat ("regencia"), contPat ("farmacia")], ("TECNOLOGIA EN REGENCIA DE FARMACIA").toList),
   ([chainP ["desarrollo", "software"], contPat ("software")],
     ("TECNOLOGIA EN DESARROLLO DE SOFTWARE").toList),
   ([chainP ["programacion", "web"]], ("TECNICO PROFESIONAL EN PROGRAMACION WEB").toList),
   ([chainP ["lic", "ciencias", "naturales"], chainP ["ciencias", "naturales", "educ"]],
     ("LICENCIATURA EN CIENCIAS NATURALES Y EDUCACION AMBIENTAL").toList),
   ([chainP ["lic", "ciencias", "sociales"], chainP ["ciencias", "sociales"]],
     ("LICENCIATURA EN CIENCIAS SOCIALES").toList),
   ([chainP ["lic", "artistica"], chainP ["educacion", "artistica"]],
     ("LICENCIATURA EN EDUCACION ARTISTICA").toList),
   ([chainP ["lic", "infantil"], chainP ["educacion", "infantil"]],
     ("LICENCIATURA EN EDUCACION INFANTIL").toList),
   ([chainP ["lic", "fisica", "deporte"], chainP ["educacion", "fisica"]],
     ("LICENCIATURA EN EDUCACION FISICA RECREACION Y DEPORTE").toList),
   ([chainP ["lic", "informatica"], chainP ["informatica", "medios"]],
     ("LICENCIATURA EN INFORMATICA Y MEDIOS AUDIOVISUALES").toList),
   ([chainP ["lic", "ingles"], chainP ["lenguas", "extranjeras"]],
     ("LICENCIATURA EN LENGUAS EXTRANJERAS CON ENFASIS EN INGLES").toList),
   ([chainP ["lic", "literatura"], chainP ["lengua", "castellana"]],
     ("LICENCIATURA EN LITERATURA Y LENGUA CASTELLANA").toList)]

/-- One subject row of the pensum data set (the fields used by the
functions under verification). -/
structure MateriaPensum where
  programa : Str
  semestre : Str
  materia : Str
  jornada : Str
deriving DecidableEq, Repr

/-- Embedding of `buscarProgramaPorKeyword` (local-data service): the
first matching pattern row wins; otherwise search the distinct program
names of the pensum data for one containing the whole normalized
keyword. -/
def buscarProgramaPorKeyword (pensum : List MateriaPensum) (keyword : Str) : Option Str :=
  let normalized := normalizeText keyword
  match keywordMap.find? (fun row => row.1.any (kwTest normalized)) with
  | some row => some row.2
  | none =>
    (dedupList (pensum.map (fun m => m.programa))).find?
      (fun p => strIncludes normalized (normalizeText p))

/-- Test of `medicina(?!\s*veterinaria)`: an occurrence of "medicina"
not followed (after optional whitespace) by "veterinaria". -/
def medicinaNotVet (s : Str) : Bool :=
  (List.range (s.length + 1)).any (fun i =>
    litAt (("medicina").toList) s i &&
    !(matchToks [PatTok.ws0, plit ("veterinaria")] (s.drop (i + 8))))

/-- Embedding of `detectarFacultad` (src/chatbot.ts lines 351-391):
ordered keyword table, first match wins. -/
def detectarFacultad (n : Str) : Option Str :=
  if strIncludes (("ingenieria").toList) n || strIncludes (("ingenierias").toList) n ||
      containsWordB (("ing").toList) n then
    some (("FACULTAD DE INGENIERIAS").toList)
  else if strIncludes (("agricola").toList) n || strIncludes (("agricolas").toList) n ||
      strIncludes (("agronomia").toList) n || containsRightB (("agro").toList) n then
    some (("FACULTAD DE CIENCIAS AGRICOLAS").toList)
  else if anyPosMatch [plit ("ciencias"), PatTok.ws0, plit ("basicas")] n ||
      strIncludes (("basicas").toList) n || strIncludes (("fisica").toList) n ||
      strIncludes (("quimica").toList) n || strIncludes (("biologia").toList) n ||
      strIncludes (("estadistica").toList) n || strIncludes (("matematica").toList) n ||
      strIncludes (("geografia").toList) n then
    some (("FACULTAD DE CIENCIAS BASICAS").toList)
  else if strIncludes (("salud").toList) n || strIncludes (("enfermeria").toList) n ||
      medicinaNotVet n || strIncludes (("bacteriologia").toList) n then
    some (("FACULTAD DE CIENCIAS DE LA SALUD").toList)
  else if strIncludes (("economica").toList) n || strIncludes (("juridica").toList) n ||
      strIncludes (("administrativa").toList) n || strIncludes (("derecho").toList) n ||
      strIncludes (("administracion").toList) n || strIncludes (("finanzas").toList) n ||
      strIncludes (("comercio").toList) n then
    some (("FACULTAD DE CIENCIAS ECONOMICAS, JURIDICAS Y ADMINISTRATIVAS").toList)
  else if strIncludes (("educacion").toList) n || strIncludes (("humanas").toList) n ||
      strIncludes (("pedagogia").toList) n || strIncludes (("licenciatura").toList) n ||
      strIncludes (("sociales").toList) n then
    some (("FACULTAD DE EDUCACION Y CIENCIAS HUMANAS").toList)
  else if strIncludes (("veterinaria").toList) n || strIncludes (("zootecnia").toList) n ||
      strIncludes (("animal").toList) n then
    some (("FACULTAD DE MEDICINA VETERINARIA Y ZOOTECNIA").toList)
  else none

/-- Alternatives of the admission-intent pattern (src/chatbot.ts
line 291); optional groups are expanded distributively and the
accent classes are kept. -/
def admisionAlts : List (List PatTok) :=
  [[plit ("admisi"), PatTok.cls ['o', 'ó'], plit ("n")],
   [plit ("inscripci"), PatTok.cls ['o', 'ó'], plit ("n")],
   [plit ("inscribirme")],
   [plit ("proceso"), PatTok.ws0, PatTok.optLit (("de").toList), PatTok.ws0,
    plit ("admisi"), PatTok.cls ['o', 'ó'], plit ("n")],
   [plit ("proceso"), PatTok.ws0, PatTok.optLit (("de").toList), PatTok.ws0,
    plit ("inscripci"), PatTok.cls ['o', 'ó'], plit ("n")],
   [plit ("proceso"), PatTok.ws0, PatTok.optLit (("de").toList), PatTok.ws0, plit ("entrada")],
   [plit ("proceso"), PatTok.ws0, PatTok.optLit (("de").toList), PatTok.ws0, plit ("ingreso")],
   [plit ("proceso"), PatTok.ws0, PatTok.optLit (("de").toList), PatTok.ws0,
    plit ("selecci"), PatTok.cls ['o', 'ó'], plit ("n")],
   [plit ("requisito"), PatTok.optChr 's', PatTok.ws0, PatTok.optLit (("de").toList),
    PatTok.ws0, plit ("ingreso")],
   [plit ("como"), PatTok.ws0, plit ("entro")],
   [plit ("como"), PatTok.ws0, plit ("ingreso")],
   [plit ("como"), PatTok.ws0, plit ("me"), PatTok.ws0, plit ("inscribo")],
   [plit ("puedo"), PatTok.ws0, plit ("entrar")],
   [plit ("puedo"), PatTok.ws0, plit ("ingresar")],
   [plit ("puedo"), PatTok.ws0, plit ("aspirar")],
   [plit ("puntaje")],
   [plit ("icfes")],
   [plit ("saber"), PatTok.ws0, plit ("11")],
   [plit ("aspirante")],
   [plit ("aspirar")],
   [plit ("simulador")],
   [plit ("ponderado")],
   [plit ("puntaje"), PatTok.ws0, plit ("m"), PatTok.cls ['i', 'í'], plit ("nimo")],
   [plit ("nota"), PatTok.ws0, plit ("de"), PatTok.ws0, plit ("corte")],
   [plit ("corte"), PatTok.ws0, PatTok.optLit (("de").toList), PatTok.ws0,
    PatTok.optLit (("admision").toList)],
   [plit ("promedio"), PatTok.ws0, plit ("ponderado")],
   [plit ("calcular"), PatTok.ws0, PatTok.optLit (("mi").toList), PatTok.ws0, plit ("puntaje")]]

def admisionTest (s : Str) : Bool :=
  admisionAlts.any (fun alt => anyPosMatch alt s)

/-- Test of `/materias?|asignaturas?|pensum/`. -/
def pensumTest (s : Str) : Bool :=
  anyPosMatch [plit ("materia"), PatTok.optChr 's'] s ||
  anyPosMatch [plit ("asignatura"), PatTok.optChr 's'] s ||
  anyPosMatch [plit ("pensum")] s

/-- Test of `/creditos?/`. -/
def creditosTest (s : Str) : Bool :=
  anyPosMatch [plit ("credito"), PatTok.optChr 's'] s

/-- Test of `/programa|carrera/`. -/
def programaCarreraTest (s : Str) : Bool :=
  strIncludes (("programa").toList) s || strIncludes (("carrera").toList) s

/-- Test of `/listar|cuales|todos|que\s+(programas|carreras)\s+(hay|ofrece|tiene)/`. -/
def listarTest (s : Str) : Bool :=
  strIncludes (("listar").toList) s || strIncludes (("cuales").toList) s ||
  strIncludes (("todos").toList) s ||
  ((["programas", "carreras"]).any (fun b =>
    (["hay", "ofrece", "tiene"]).any (fun c =>
      anyPosMatch [plit ("que"), PatTok.ws1, PatTok.lit b.toList, PatTok.ws1,
        PatTok.lit c.toList] s)))

/-- Ordinal-word table for semesters (src/chatbot.ts lines 237-270), in
source order; the first key contained in the message wins. -/
def semestresOrdinal : List (Str × Str) :=
  (([("primer", "1"), ("primero", "1"), ("1er", "1"), ("1°", "1"),
     ("segundo", "2"), ("2do", "2"), ("2°", "2"),
     ("tercer", "3"), ("tercero", "3"), ("3er", "3"), ("3°", "3"),
     ("cuarto", "4"), ("4to", "4"), ("4°", "4"),
     ("quinto", "5"), ("5to", "5"), ("5°", "5"),
     ("sexto", "6"), ("6to", "6"), ("6°", "6"),
     ("septimo", "7"), ("7mo", "7"), ("7°", "7"),
     ("octavo", "8"), ("8vo", "8"), ("8°", "8"),
     ("noveno", "9"), ("9no", "9"), ("9°", "9"),
     ("decimo", "10"), ("10mo", "10"), ("10°", "10")]
    : List (String × String)).map (fun p => (p.1.toList, p.2.toList)))

/-- First ordinal key contained in the message, mapped to its digit. -/
def ordinalSemestre (n : Str) : Option Str :=
  (semestresOrdinal.find? (fun p => strIncludes p.1 n)).map (fun p => p.2)

/-- Capture of `/semestre\s*(\d+)/`: digits after the first "semestre"
that is followed, past optional whitespace, by at least one digit. -/
def semestreCapture (s : Str) : Option Str :=
  (List.range (s.length + 1)).findSome? (fun i =>
    if litAt (("semestre").toList) s i then
      let j := i + 8
      let b := runLen isJsWs s j
      let d := (s.drop (j + b)).takeWhile Char.isDigit
      if d ≠ [] then some d else none
    else none)

/-- The entity record produced by `extractEntities`
(`ExtractedEntities` in src/types). -/
structure ExtractedEntities where
  facultades : List Str
  programas : List Str
  materias : List Str
  semestres : List Str
  jornadas : List Str
  intenciones : List String
  rawQuery : Str
deriving DecidableEq, Repr

/-- The intent list built by the main path of `extractEntities`
(src/chatbot.ts lines 290-320), in push order: admission, pensum,
credits, faculty, program, listing. It depends only on the normalized
message. -/
def mainIntents (normalized : Str) : List String :=
  let i1 : List String := if admisionTest normalized then ["INFO_ADMISION"] else []
  let i2 := i1 ++ (if pensumTest normalized then ["INFO_PENSUM"] else [])
  let i3 := i2 ++ (if creditosTest normalized then ["CREDITOS"] else [])
  let i4 :=
    match detectarFacultad normalized with
    | some _ => if i3.contains "INFO_FACULTAD" then i3 else i3 ++ ["INFO_FACULTAD"]
    | none =>
      if strIncludes (("facultad").toList) normalized then i3 ++ ["INFO_FACULTAD"] else i3
  let i5 := i4 ++ (if programaCarreraTest normalized then ["INFO_PROGRAMA"] else [])
  i5 ++ (if listarTest normalized then ["LISTAR"] else [])

/-- Embedding of `Chatbot.extractEntities` (src/chatbot.ts
lines 201-341), parameterized by the pensum data set consulted by the
program-keyword fallback (the JSON data files are not part of the
sources). The sequential mutations of the source become ordered list
concatenations. -/
def extractEntities (pensum : List MateriaPensum) (message : Str) : ExtractedEntities :=
  let normalized := normalizeText message
  if saludoTest normalized then
    ⟨[], [], [], [], [], ["SALUDO"], message⟩
  else if despedidaTest normalized then
    ⟨[], [], [], [], [], ["DESPEDIDA"], message⟩
  else
    let programas :=
      match buscarProgramaPorKeyword pensum normalized with
      | some p => [p]
      | none => []
    let semestres :=
      match ordinalSemestre normalized with
      | some x => [x]
      | none =>
        match semestreCapture normalized with
        | some d => [d]
        | none => []
    let jornadas :=
      (if strIncludes (("diurna").toList) normalized then [("DIURNA").toList] else []) ++
      (if strIncludes (("nocturna").toList) normalized then [("NOCTURNA").toList] else []) ++
      (if strIncludes (("distancia").toList) normalized then [("DISTANCIA").toList] else [])
    let facultades :=
      match detectarFacultad normalized with
      | some f => [f]
      | none => []
    let i6 := mainIntents normalized
    let programas2 :=
      if i6.contains "LISTAR" && facultades ≠ [] && programas ≠ [] then [] else programas
    let intenciones := if i6 = [] then ["GENERAL"] else i6
    ⟨facultades, programas2, [], semestres, jornadas, intenciones, message⟩

/-- Per-session short-term memory (src/chatbot.ts lines 25-32). -/
structure SessionCtx where
  programa : Option Str
  facultad : Option Str
  ultimoTema : Option String
deriving DecidableEq, Repr

/-- JavaScript truthiness of an optional string field: `undefined` and
the empty string are falsy. -/
def truthyStr : Option Str → Option Str
  | some s => if s = [] then none else some s
  | none => none

/-- Test of the follow-up pattern
`^(y\s+(de|el|la|los|las)?|que\s+tal|como\s+es|cual(es)?)` of
`enrichEntitiesFromContext`: the trailing optional article group and
the optional "es" cannot affect a boolean test and are dropped. -/
def esPreguntaSeguimiento (s : Str) : Bool :=
  matchToks [plit ("y"), PatTok.ws1] s ||
  matchToks [plit ("que"), PatTok.ws1, plit ("tal")] s ||
  matchToks [plit ("como"), PatTok.ws1, plit ("es")] s ||
  matchToks [plit ("cual")] s

/-- Test of `/semestre|primer|segund|tercer|cuart|quint|sext|septim|octav|noven|decim/`. -/
def semestreWordTest (s : Str) : Bool :=
  ((["semestre", "primer", "segund", "tercer", "cuart", "quint", "sext",
     "septim", "octav", "noven", "decim"]).map String.toList).any
    (fun w => strIncludes w s)

/-- Embedding of `Chatbot.enrichEntitiesFromContext` (src/chatbot.ts
lines 401-453), with the stored context passed explicitly. -/
def enrichEntitiesFromContext (ctx : Option SessionCtx)
    (entities : ExtractedEntities) (message : Str) : ExtractedEntities :=
  match ctx with
  | none => entities
  | some c =>
    let normalized := normalizeText message
    let esPS := esPreguntaSeguimiento normalized
    let e1 :=
      match truthyStr c.programa with
      | some pr =>
        if entities.programas = [] then
          let mencionaSemestre :=
            entities.semestres ≠ [] || semestreWordTest normalized
          if esPS || mencionaSemestre then
            { entities with programas := entities.programas ++ [pr] }
          else entities
        else entities
      | none => entities
    let e2 :=
      match truthyStr c.facultad with
      | some f =>
        if e1.facultades = [] && esPS then
          { e1 with facultades := e1.facultades ++ [f] }
        else e1
      | none => e1
    if e2.semestres ≠ [] && e2.programas ≠ [] then
      if e2.intenciones.contains "INFO_PENSUM" then e2
      else
        { e2 with
          intenciones := (e2.intenciones.filter (fun i => i ≠ "GENERAL")) ++ ["INFO_PENSUM"] }
    else e2

/-- Embedding of `Chatbot.updateSessionContext` (src/chatbot.ts
lines 458-484); the session map is modelled as a function from session
identifiers to optional contexts. -/
def updateSessionContext (store : Str → Option SessionCtx) (sessionId : Str)
    (entities : ExtractedEntities) : Str → Option SessionCtx :=
  let ctx0 := (store sessionId).getD ⟨none, none, none⟩
  let c1 :=
    match entities.programas with
    | p :: _ => { ctx0 with programa := some p }
    | [] => ctx0
  let c2 :=
    match entities.facultades with
    | f :: _ => { c1 with facultad := some f }
    | [] => c1
  let c3 :=
    if entities.intenciones ≠ [] && !(entities.intenciones.contains "GENERAL") then
      match entities.intenciones with
      | i :: _ => { c2 with ultimoTema := some i }
      | [] => c2
    else c2
  fun s => if s = sessionId then some c3 else store s

/-- The deduplication key `programa|semestre|materia|jornada`. -/
def materiaKey (m : MateriaPensum) : Str :=
  m.programa ++ ("|").toList ++ m.semestre ++ ("|").toList ++
    m.materia ++ ("|").toList ++ m.jornada

/-- Seen-set filter keeping the first row of each key
(src/chatbot.ts lines 523-529). -/
def dedupeByKeyAux (seen : List Str) : List MateriaPensum → List MateriaPensum
  | [] => []
  | m :: rest =>
    if materiaKey m ∈ seen then dedupeByKeyAux seen rest
    else m :: dedupeByKeyAux (materiaKey m :: seen) rest

def dedupeMaterias (ms : List MateriaPensum) : List MateriaPensum :=
  dedupeByKeyAux [] ms

/-- Embedding of the curriculum part of `Chatbot.getAcademicContext`
(src/chatbot.ts lines 501-541): when a program was resolved, the rows
fetched from the academic provider (passed here as `pensumResult`) are
deduplicated and then narrowed either to the requested schedule track
or to the track of the first remaining row. -/
def contextMaterias (pensumResult : List MateriaPensum)
    (entities : ExtractedEntities) : List MateriaPensum :=
  if entities.programas = [] then [] else
  let materias := dedupeMaterias pensumResult
  match entities.jornadas with
  | j :: _ =>
    materias.filter (fun m => strIncludes (normalizeText j) (normalizeText m.jornada))
  | [] =>
    match materias with
    | [] => []
    | m0 :: _ => materias.filter (fun m => m.jornada = m0.jornada)

/-- One planned data-fetch call (`ApiCall` in src/types). -/
structure ApiCall where
  endpoint : String
  params : List (String × Str)
  priority : Nat
deriving DecidableEq, Repr

/-- A query plan (`QueryPlan` in src/types). -/
structure QueryPlan where
  apis : List ApiCall
  strategy : String
  maxResults : Nat
deriving DecidableEq, Repr

/-- The configured `config.chatbot.maxApiResults`. -/
def maxApiResults : Nat := 50

/-- Model of `rawQuery.split(" ")[0]`. -/
def firstWord (s : Str) : Str := s.takeWhile (fun c => c ≠ ' ')

/-- Embedding of `QueryBuilderService.buildQueryPlan`
(src/services/chat.repository.ts lines 603-722). -/
def buildQueryPlan (e : ExtractedEntities) : QueryPlan :=
  if e.intenciones.contains "SALUDO" || e.intenciones.contains "DESPEDIDA" then
    ⟨[], "sequential", 0⟩
  else
    let apis1 : List ApiCall :=
      if e.intenciones.contains "LISTAR_FACULTADES" then
        [⟨"facultades", [], 1⟩]
      else []
    let apis2 := apis1 ++
      (if e.facultades ≠ [] || e.intenciones.contains "INFO_FACULTAD" then
        let facultadNombre :=
          match e.facultades with
          | f :: _ => if f = [] then e.rawQuery else f
          | [] => e.rawQuery
        [⟨"facultades", [("nombre", facultadNombre)], 1⟩]
      else [])
    let apis3 := apis2 ++
      (if e.intenciones.contains "LISTAR_PROGRAMAS" ||
          e.intenciones.contains "INFO_PROGRAMA" || e.programas ≠ [] then
        let ps1 : List (String × Str) :=
          match e.programas with
          | p :: _ => [("programa_nombre", p.take 6)]
          | [] =>
            if e.rawQuery ≠ [] then [("programa_nombre", firstWord e.rawQuery)] else []
        let ps2 := ps1 ++
          (match e.facultades with
           | f :: _ => [("facultad_nombre", f)]
           | [] => [])
        [⟨"programas", ps2, 2⟩]
      else [])
    let apis4 := apis3 ++
      (if e.intenciones.contains "INFO_MATERIA" || e.intenciones.contains "INFO_PENSUM" ||
          e.intenciones.contains "LISTAR_MATERIAS" || e.intenciones.contains "CREDITOS" ||
          e.materias ≠ [] || (e.programas ≠ [] && e.semestres ≠ []) then
        let q1 : List (String × Str) :=
          match e.programas with
          | p :: _ => [("programa_nombre", p)]
          | [] => []
        let q2 := q1 ++
          (match e.semestres with
           | s :: _ => [("semestre", s)]
           | [] => [])
        let q3 := q2 ++
          (match e.materias with
           | mm :: _ => [("materia_nombre", mm)]
           | [] => [])
        let q4 := q3 ++
          (match e.jornadas with
           | j :: _ => [("lugar_desarrollo", j)]
           | [] => [])
        [⟨"pensum", q4, 3⟩]
      else [])
    let apis5 :=
      if apis4 = [] && e.rawQuery ≠ [] then
        [⟨"programas", [("programa_nombre", firstWord e.rawQuery)], 1⟩]
      else apis4
    let limited := (sortByKeyAsc (fun a => (a.priority : Int)) apis5).take 3
    ⟨limited, if 1 < limited.length then "parallel" else "sequential", maxApiResults⟩

/-- A two-newline separator. -/
def nlnl : Str := ['\n', '\n']

/-- Counterexample document for the budget claim: four blank-line
paragraphs; the two relevant ones measure 62 characters each. -/
def c1p1 : Str := ("informatica informatica redes y datos para gente aqui tema xxx").toList

def c1p2 : Str := ("informatica con mas contenido util sobre cosas varias temas xx").toList

def c1p3 : Str := ("parrafo sin palabras clave relevantes aqui alli xxx").toList

def c1p4 : Str := ("otro parrafo sin palabras clave utiles alla aca xxx").toList

def c1doc : Str := c1p1 ++ nlnl ++ c1p2 ++ nlnl ++ c1p3 ++ nlnl ++ c1p4

/-- Six zero-scoring paragraphs (51 characters each, no keyword, short
enough to earn no length bonus). -/
def c7z1 : Str := ("primer parrafo de relleno sin terminos buscados mas").toList

def c7z2 : Str := ("segundo parrafo de relleno sin terminos buscados xx").toList

def c7z3 : Str := ("tercer parrafo de relleno sin terminos buscados mas").toList

def c7z4 : Str := ("cuarto parrafo de relleno sin terminos buscados mas").toList

def c7z5 : Str := ("quinto parrafo de relleno sin terminos buscados mas").toList

def c7z6 : Str := ("sexto parrafo de relleno sin terminos buscados masx").toList

def c7zdoc : Str :=
  c7z1 ++ nlnl ++ c7z2 ++ nlnl ++ c7z3 ++ nlnl ++ c7z4 ++ nlnl ++ c7z5 ++ nlnl ++ c7z6

/-- A 310-character paragraph sharing no vocabulary with the query:
long enough to earn the +15 and +5 length bonuses, so it scores 20. -/
def c7p1 : Str :=
  ("este parrafo largo habla de muchos temas distintos y contiene bastante contenido sustancial sobre varios asuntos importantes relativos al programa academico y sus aspectos sobre varios asuntos importantes relativos al programa academico y sus aspectos sobre varios asuntos importantes relativos al programa xxx").toList

def c7p4 : Str := ("cuarto parrafo sin contenido relevante alguno aqui ya").toList

def c7doc : Str := c7p1 ++ nlnl ++ c1p3 ++ nlnl ++ c1p4 ++ nlnl ++ c7p4

/-- Sample curriculum rows with one duplicate and two schedule tracks. -/
def c10rows : List MateriaPensum :=
  [⟨("INGENIERIA DE SISTEMAS").toList, ("1").toList, ("CALCULO I").toList, ("DIURNA").toList⟩,
   ⟨("INGENIERIA DE SISTEMAS").toList, ("1").toList, ("CALCULO I").toList, ("DIURNA").toList⟩,
   ⟨("INGENIERIA DE SISTEMAS").toList, ("1").toList, ("CALCULO I").toList, ("NOCTURNA").toList⟩]

/-- Entity record with a resolved program and no schedule track. -/
def c10e : ExtractedEntities :=
  ⟨[], [("INGENIERIA DE SISTEMAS").toList], [], [("1").toList], [], ["INFO_PENSUM"],
    ("materias de sistemas").toList⟩

/-- A representative pensum sample for concrete evaluation. -/
def samplePensum : List MateriaPensum :=
  [⟨("INGENIERIA DE SISTEMAS").toList, ("1").toList, ("CALCULO I").toList, ("DIURNA").toList⟩,
   ⟨("ENFERMERIA").toList, ("2").toList, ("ANATOMIA").toList, ("DIURNA").toList⟩]

/-- A character that the normalization pipeline fixes: lower-casing
keeps it, NFD leaves it alone, and it is not a combining mark. -/
def StableChar (c : Char) : Prop :=
  jsToLower c = c ∧ nfdChar c = [c] ∧ isCombining c = false

instance (c : Char) : Decidable (StableChar c) :=
  inferInstanceAs (Decidable (_ ∧ _ ∧ _))

/-- Inserting permutes to consing. -/
theorem insertByKey_perm (key : α → Int) (x : α) :
    ∀ l : List α, (insertByKey key x l).Perm (x :: l)
  | [] => List.Perm.refl _
  | y :: ys => by
    unfold insertByKey
    split
    · exact List.Perm.refl _
    · exact ((insertByKey_perm key x ys).cons y).trans (List.Perm.swap x y ys)

/-- The stable sort permutes its input. -/
theorem sortByKeyAsc_perm (key : α → Int) : ∀ l : List α, (sortByKeyAsc key l).Perm l
  | [] => List.Perm.refl _
  | x :: xs =>
    (insertByKey_perm key x (sortByKeyAsc key xs)).trans
      ((sortByKeyAsc_perm key xs).cons x)

/-- Insertion preserves key-sortedness. -/
theorem insertByKey_pairwise (key : α → Int) (x : α) :
    ∀ l : List α, l.Pairwise (fun a b => key a ≤ key b) →
      (insertByKey key x l).Pairwise (fun a b => key a ≤ key b)
  | [], _ => by simp [insertByKey]
  | y :: ys, h => by
    unfold insertByKey
    by_cases hxy : key x ≤ key y
    · rw [if_pos hxy]
      refine List.Pairwise.cons ?_ h
      intro b hb
      rcases List.mem_cons.mp hb with rfl | hb2
      · exact hxy
      · exact le_trans hxy (List.rel_of_pairwise_cons h hb2)
    · rw [if_neg hxy]
      refine List.Pairwise.cons ?_ (insertByKey_pairwise key x ys h.of_cons)
      intro b hb
      rcases List.mem_cons.mp ((insertByKey_perm key x ys).mem_iff.mp hb) with rfl | hb2
      · exact le_of_not_le hxy
      · exact List.rel_of_pairwise_cons h hb2

/-- The stable sort produces a key-sorted list. -/
theorem sortByKeyAsc_pairwise (key : α → Int) :
    ∀ l : List α, (sortByKeyAsc key l).Pairwise (fun a b => key a ≤ key b)
  | [] => List.Pairwise.nil
  | x :: xs => insertByKey_pairwise key x _ (sortByKeyAsc_pairwise key xs)

/-- Length of a separator join of a non-empty list. -/
theorem joinSep_length (sep : Str) :
    ∀ l : List Str, l ≠ [] →
      (joinSep sep l).length = (l.map List.length).sum + sep.length * (l.length - 1)
  | [], h => absurd rfl h
  | [x], _ => by simp [joinSep]
  | x :: y :: rest, _ => by
    have hr := joinSep_length sep (y :: rest) (by simp)
    show (x ++ sep ++ joinSep sep (y :: rest)).length = _
    rw [List.length_append, List.length_append, hr]
    simp only [List.map_cons, List.sum_cons, List.length_cons]
    have he : rest.length + 1 + 1 - 1 = (rest.length + 1 - 1) + 1 := by omega
    rw [he, Nat.mul_succ]
    omega

/-- Members of an insertion-ordered deduplication come from the input. -/
theorem mem_of_mem_foldl_insertUnique [DecidableEq α] :
    ∀ (l : List α) (acc : List α) (x : α), x ∈ l.foldl insertUnique acc →
      x ∈ acc ∨ x ∈ l
  | [], _, _, h => Or.inl h
  | a :: rest, acc, x, h => by
    rcases mem_of_mem_foldl_insertUnique rest (insertUnique acc a) x h with h2 | h2
    · unfold insertUnique at h2
      split at h2
      · exact Or.inl h2
      · rcases List.mem_append.mp h2 with h3 | h3
        · exact Or.inl h3
        · simp only [List.mem_singleton] at h3
          exact Or.inr (h3 ▸ List.mem_cons_self a rest)
    · exact Or.inr (List.mem_cons_of_mem a h2)

/-- Members of `dedupList` are members of the input list. -/
theorem mem_of_mem_dedupList [DecidableEq α] {l : List α} {x : α}
    (h : x ∈ dedupList l) : x ∈ l := by
  rcases mem_of_mem_foldl_insertUnique l [] x h with h2 | h2
  · cases h2
  · exact h2
/-- C3. For every entity record, the query plan never contains more
than three calls, the calls are sorted by ascending priority, and a
greeting or farewell intent yields a plan with no calls at all. -/
theorem queryPlan_caps_sorted_empty (e : ExtractedEntities) :
    (buildQueryPlan e).apis.length ≤ 3 ∧
    (buildQueryPlan e).apis.Pairwise (fun a b => a.priority ≤ b.priority) ∧
    (("SALUDO" ∈ e.intenciones ∨ "DESPEDIDA" ∈ e.intenciones) →
      (buildQueryPlan e).apis = []) := by
  by_cases hg : (e.intenciones.contains "SALUDO" || e.intenciones.contains "DESPEDIDA") = true
  · unfold buildQueryPlan
    rw [if_pos hg]
    exact ⟨by simp, by simp, fun _ => rfl⟩
  · unfold buildQueryPlan
    rw [if_neg hg]
    refine ⟨?_, ?_, ?_⟩
    · rw [List.length_take]
      exact Nat.min_le_left _ _
    · exact List.Pairwise.sublist (List.take_sublist _ _)
        ((sortByKeyAsc_pairwise _ _).imp (fun hh => by exact_mod_cast hh))
    · intro h
      exfalso
      apply hg
      simp only [Bool.or_eq_true]
      rcases h with h | h
      · exact Or.inl (List.elem_eq_true_of_mem h)
      · exact Or.inr (List.elem_eq_true_of_mem h)

/-- Witness for the query-plan theorem: at a concrete greeting record
the plan is empty. -/
theorem queryPlan_caps_sorted_empty_witness :
    (buildQueryPlan ⟨[], [], [], [], [], ["SALUDO"], ("hola").toList⟩).apis = [] :=
  (queryPlan_caps_sorted_empty ⟨[], [], [], [], [], ["SALUDO"], ("hola").toList⟩).2.2
    (Or.inl (by decide))

/-- The ellipsis marker has three characters. -/
theorem ellipsis_len : ellipsis.length = 3 := rfl

/-- The first selected chunk is clamped to the budget (for budgets of
at least three characters) and stays non-empty. -/
theorem truncChunk_len (m : Nat) (h3 : 3 ≤ m) (c : ScoredChunk) (hc : c.text ≠ []) :
    0 < (truncChunk m c).text.length ∧ (truncChunk m c).text.length ≤ m := by
  unfold truncChunk
  by_cases hm : m < c.text.length
  · rw [if_pos hm]
    simp only [jsSliceTo]
    rw [if_neg (by omega : ¬ ((m : Int) - 3 < 0))]
    simp only [List.length_append, List.length_take, ellipsis_len]
    have he : ((m : Int) - 3).toNat = m - 3 := by omega
    rw [he]
    omega
  · rw [if_neg hm]
    exact ⟨List.length_pos.mpr hc, by omega⟩

/-- Budget invariant of the walk once something was accumulated: every
further chunk contributes its length plus four and the running total
never exceeds the budget. -/
theorem selectChunks_tail_bound (m : Nat) :
    ∀ (l : List ScoredChunk) (cur : Nat), 0 < cur → cur ≤ m →
      ((selectChunks m l cur).map (fun c => c.text.length)).sum +
        4 * (selectChunks m l cur).length + cur ≤ m
  | [], cur, _, h2 => by
    simp only [selectChunks, List.map_nil, List.sum_nil, List.length_nil]
    omega
  | c :: rest, cur, h1, h2 => by
    unfold selectChunks
    by_cases hs : c.score = 0
    · rw [if_pos hs]
      simp only [List.map_nil, List.sum_nil, List.length_nil]
      omega
    · rw [if_neg hs]
      have hcur : ¬ (decide (cur = 0) && decide (10 < c.score)) = true := by
        simp only [Bool.and_eq_true, decide_eq_true_eq]
        intro hx
        omega
      rw [if_neg hcur]
      by_cases hfit : cur + (c.text.length + 4) ≤ m
      · rw [if_pos hfit]
        have hr := selectChunks_tail_bound m rest (cur + (c.text.length + 4)) (by omega) hfit
        simp only [List.map_cons, List.sum_cons, List.length_cons]
        omega
      · rw [if_neg hfit]
        simp only [List.map_nil, List.sum_nil, List.length_nil]
        omega

/-- Budget bound of the whole walk: the selected lengths plus four per
separator estimate stay within the budget. -/
theorem selectChunks_head_bound (m : Nat) (h3 : 3 ≤ m) (l : List ScoredChunk)
    (hne : ∀ c ∈ l, c.text ≠ []) :
    ((selectChunks m l 0).map (fun c => c.text.length)).sum +
      4 * ((selectChunks m l 0).length - 1) ≤ m := by
  cases l with
  | nil => simp [selectChunks]
  | cons c rest =>
    unfold selectChunks
    by_cases hs : c.score = 0
    · rw [if_pos hs]
      simp
    · rw [if_neg hs]
      by_cases hbig : 10 < c.score
      · have hcond : (decide ((0 : Nat) = 0) && decide (10 < c.score)) = true := by
          simp [hbig]
        rw [if_pos hcond]
        have hc := hne c (List.mem_cons_self c rest)
        have ht := truncChunk_len m h3 c hc
        have hr := selectChunks_tail_bound m rest (0 + (truncChunk m c).text.length)
          (by omega) (by omega)
        simp only [List.map_cons, List.sum_cons, List.length_cons]
        omega
      · have hcond : ¬ (decide ((0 : Nat) = 0) && decide (10 < c.score)) = true := by
          simp [hbig]
        rw [if_neg hcond]
        by_cases hfit : 0 + (c.text.length + 4) ≤ m
        · rw [if_pos hfit]
          have hr := selectChunks_tail_bound m rest (0 + (c.text.length + 4))
            (by omega) (by omega)
          simp only [List.map_cons, List.sum_cons, List.length_cons]
          omega
        · rw [if_neg hfit]
          simp

/-- Title-based segments are longer than 150 characters. -/
theorem mem_sectionParagraphs_len {t p : Str} (h : p ∈ sectionParagraphs t) :
    150 < p.length := by
  simp only [sectionParagraphs] at h
  split at h
  · rcases List.mem_filterMap.mp h with ⟨i, _, heq⟩
    rcases hms : (sectionMatches t).get? i with _ | m
    · rw [hms] at heq
      cases heq
    · rw [hms] at heq
      dsimp only at heq
      split at heq
      · injection heq with he
        subst he
        assumption
      · cases heq
  · cases h

/-- Blank-line segments are longer than 50 characters. -/
theorem mem_blankLineParagraphs_len {t p : Str} (h : p ∈ blankLineParagraphs t) :
    50 < p.length := by
  unfold blankLineParagraphs at h
  have := (List.mem_filter.mp h).2
  simpa using this

/-- Window segments are longer than 100 characters. -/
theorem mem_windowChunks_len {t p : Str} (h : p ∈ windowChunks t) :
    100 < p.length := by
  simp only [windowChunks] at h
  rcases List.mem_filterMap.mp h with ⟨i, _, heq⟩
  split at heq
  · injection heq with he
    subst he
    assumption
  · cases heq

/-- Every segment produced by the segmentation is non-empty. -/
theorem mem_segmentText_ne {t p : Str} (h : p ∈ segmentText t) : p ≠ [] := by
  have hlen : 0 < p.length := by
    simp only [segmentText] at h
    repeat' split at h
    all_goals
      first
      | (rcases List.mem_append.mp h with h2 | h2 <;>
          first
          | exact lt_trans (by norm_num) (mem_sectionParagraphs_len h2)
          | exact lt_trans (by norm_num) (mem_blankLineParagraphs_len h2)
          | exact lt_trans (by norm_num) (mem_windowChunks_len h2))
      | exact lt_trans (by norm_num) (mem_sectionParagraphs_len h)
      | exact lt_trans (by norm_num) (mem_blankLineParagraphs_len h)
  exact List.length_pos.mp hlen

/-- The scorer keeps the segment text. -/
theorem scoreChunk_text (keywords : List Str) (p : Str) :
    (scoreChunk keywords p).text = p := rfl

/-- Every scored chunk carries a non-empty segment text. -/
theorem scoredChunksOf_text_ne {t q : Str} {c : ScoredChunk}
    (h : c ∈ scoredChunksOf t q) : c.text ≠ [] := by
  unfold scoredChunksOf at h
  rcases List.mem_map.mp h with ⟨p, hp, rfl⟩
  rw [scoreChunk_text]
  exact mem_segmentText_ne hp

/-- The join separator has seven characters. -/
theorem sepStr_len : sepStr.length = 7 := rfl

/-- The ordered selection is a permutation of the tagged selected
chunks. -/
theorem orderedSelection_perm (t q : Str) (m : Nat) :
    (orderedSelection t q m).Perm
      ((selectedChunksOf t q m).map (fun c => (jsIndexOf t c.text, c))) :=
  sortByKeyAsc_perm _ _

/-- C1 (amended). For budgets of at least three characters, the excerpt
returned by `extractRelevantChunks` is at most the budget plus three
characters per separator beyond the first chunk: the walk reserves four
characters per separator while the actual separator has seven. -/
theorem chunker_budget_bound (t q : Str) (m : Nat) (h3 : 3 ≤ m) :
    (extractRelevantChunks t q m).text.length ≤
      m + 3 * ((extractRelevantChunks t q m).chunksUsed - 1) := by
  simp only [extractRelevantChunks]
  by_cases hfit : t.length ≤ m
  · rw [if_pos hfit]
    dsimp only
    omega
  · rw [if_neg hfit]
    by_cases hsel : selectedChunksOf t q m = []
    · rw [if_pos hsel]
      dsimp only
      simp only [jsSliceTo]
      rw [if_neg (by omega : ¬ ((m : Int) - 3 < 0))]
      simp only [List.length_append, List.length_take, ellipsis_len]
      have he : ((m : Int) - 3).toNat = m - 3 := by omega
      rw [he]
      omega
    · rw [if_neg hsel]
      dsimp only
      have hlen : (orderedSelection t q m).length = (selectedChunksOf t q m).length := by
        rw [(orderedSelection_perm t q m).length_eq, List.length_map]
      have hLne : (orderedSelection t q m).map (fun p => p.2.text) ≠ [] := by
        intro hnil
        apply hsel
        have hz := congrArg List.length hnil
        rw [List.length_map, hlen] at hz
        exact List.length_eq_zero.mp hz
      rw [joinSep_length sepStr _ hLne, sepStr_len, List.length_map, hlen]
      have hsum :
          ((((orderedSelection t q m).map (fun p => p.2.text)).map List.length)).sum =
            ((selectedChunksOf t q m).map (fun c => c.text.length)).sum := by
        rw [List.map_map]
        have hp := ((orderedSelection_perm t q m).map
          (fun p => (p.2.text.length : Nat))).sum_eq
        rw [List.map_map] at hp
        exact hp
      rw [hsum]
      have hne : ∀ c ∈ sortByKeyAsc (fun c => -c.score) (scoredChunksOf t q),
          c.text ≠ [] := by
        intro c hc
        exact scoredChunksOf_text_ne ((sortByKeyAsc_perm _ _).mem_iff.mp hc)
      have hbound := selectChunks_head_bound m h3 _ hne
      have hsel2 : selectedChunksOf t q m =
          selectChunks m (sortByKeyAsc (fun c => -c.score) (scoredChunksOf t q)) 0 := rfl
      rw [hsel2]
      omega

/-- Witness: the budget bound applied to a concrete short document. -/
theorem chunker_budget_bound_witness :
    (extractRelevantChunks (("abc").toList) (("q").toList) 3).text.length ≤
      3 + 3 * ((extractRelevantChunks (("abc").toList) (("q").toList) 3).chunksUsed - 1) :=
  chunker_budget_bound (("abc").toList) (("q").toList) 3 (by decide)

/-- Counterexample to C1 as stated: for this 232-character document,
query "informatica" and budget 130, two segments of 62 characters each
are selected (62 + 62 + 4 = 128 fits the walk's accounting), yet the
returned excerpt measures 62 + 7 + 62 = 131 > 130 characters because
the real separator is seven characters, not four. -/
theorem chunker_budget_counterexample :
    130 < c1doc.length ∧
    (extractRelevantChunks c1doc (("informatica").toList) 130).chunksUsed = 2 ∧
    ((selectedChunksOf c1doc (("informatica").toList) 130).map
      (fun c => c.text.length)) = [62, 62] ∧
    (extractRelevantChunks c1doc (("informatica").toList) 130).text.length = 131 := by
  set_option maxRecDepth 100000 in decide

/-- C2. The reassembled excerpt lists the selected chunks in
non-decreasing order of the position of their text in the source
document (`indexOf`), each carried position is really that first
occurrence, and on the selection path the returned excerpt is exactly
the separator join of the chunks in that order. -/
theorem chunker_output_in_document_order (t q : Str) (m : Nat) :
    (orderedSelection t q m).Pairwise (fun a b => a.1 ≤ b.1) ∧
    (∀ p ∈ orderedSelection t q m, p.1 = jsIndexOf t p.2.text) ∧
    (¬ t.length ≤ m → selectedChunksOf t q m ≠ [] →
      (extractRelevantChunks t q m).text =
        joinSep sepStr ((orderedSelection t q m).map (fun p => p.2.text))) := by
  refine ⟨sortByKeyAsc_pairwise _ _, ?_, ?_⟩
  · intro p hp
    have hm := (orderedSelection_perm t q m).mem_iff.mp hp
    rcases List.mem_map.mp hm with ⟨c, _, rfl⟩
    rfl
  · intro hover hsel
    simp only [extractRelevantChunks]
    rw [if_neg hover, if_neg hsel]

/-- Witness: the document-order equation applied to the concrete
document, with both hypotheses discharged by evaluation. -/
theorem chunker_output_in_document_order_witness :
    (extractRelevantChunks c1doc (("informatica").toList) 130).text =
      joinSep sepStr ((orderedSelection c1doc (("informatica").toList) 130).map
        (fun p => p.2.text)) :=
  (chunker_output_in_document_order c1doc (("informatica").toList) 130).2.2
    (by set_option maxRecDepth 100000 in decide)
    (by set_option maxRecDepth 100000 in decide)

/-- When every chunk scores zero the walk selects nothing: the first
(highest-scoring) chunk already triggers the zero-score stop. -/
theorem selectChunks_all_zero (m : Nat) (l : List ScoredChunk)
    (h : ∀ c ∈ l, c.score = 0) (cur : Nat) : selectChunks m l cur = [] := by
  cases l with
  | nil => rfl
  | cons c rest =>
    unfold selectChunks
    rw [if_pos (h c (List.mem_cons_self c rest))]

/-- C7 (amended). For every over-budget document all of whose segments
score exactly zero, the chunker returns the leading-truncation
fallback: the first budget-minus-three characters with an ellipsis, no
keywords, zero chunks. -/
theorem chunker_zero_score_fallback (t q : Str) (m : Nat)
    (hover : ¬ t.length ≤ m)
    (hzero : ∀ c ∈ scoredChunksOf t q, c.score = 0) :
    extractRelevantChunks t q m =
      ⟨jsSliceTo t ((m : Int) - 3) ++ ellipsis, [], 0⟩ := by
  have hsel : selectedChunksOf t q m = [] :=
    selectChunks_all_zero m _
      (fun c hc => hzero c ((sortByKeyAsc_perm _ _).mem_iff.mp hc)) 0
  simp only [extractRelevantChunks]
  rw [if_neg hover, if_pos hsel]

/-- Witness: the zero-score fallback at a concrete 316-character
document and budget 300, both hypotheses evaluated. -/
theorem chunker_zero_score_fallback_witness :
    extractRelevantChunks c7zdoc (("informatica").toList) 300 =
      ⟨jsSliceTo c7zdoc ((300 : Int) - 3) ++ ellipsis, [], 0⟩ :=
  chunker_zero_score_fallback c7zdoc (("informatica").toList) 300
    (by set_option maxRecDepth 100000 in decide)
    (by set_option maxRecDepth 100000 in decide)

/-- Counterexample to C7 as stated: for this over-budget document the
query "informatica" matches no keyword in any segment (the query and
document share no vocabulary, and indeed no keywords are found), yet
the chunker does not fall back to the leading truncation: the long
segment earns a score of 20 from the length bonuses alone, exceeds the
score-10 gate and is returned as the single selected chunk. -/
theorem chunker_vocab_mismatch_counterexample :
    (∀ c ∈ scoredChunksOf c7doc (("informatica").toList), c.matchedKeywords = []) ∧
    (extractRelevantChunks c7doc (("informatica").toList) 400).foundKeywords = [] ∧
    (extractRelevantChunks c7doc (("informatica").toList) 400).chunksUsed = 1 ∧
    (extractRelevantChunks c7doc (("informatica").toList) 400).text = c7p1 := by
  set_option maxRecDepth 400000 in decide

/-- An association-list lookup either misses or returns a stored pair. -/
theorem lookup_rec {β : Type} [BEq α] [LawfulBEq α] :
    ∀ (ps : List (α × β)) (c : α),
      ps.lookup c = none ∨ ∃ v, ps.lookup c = some v ∧ (c, v) ∈ ps
  | [], _ => Or.inl rfl
  | (k, v) :: rest, c => by
    by_cases hk : c == k
    · refine Or.inr ⟨v, ?_, ?_⟩
      · simp [List.lookup, hk]
      · have hkc : c = k := eq_of_beq hk
        subst hkc
        exact List.mem_cons_self _ _
    · have hl : ((k, v) :: rest).lookup c = rest.lookup c := by
        simp [List.lookup, Bool.eq_false_iff.mpr hk]
      rcases lookup_rec rest c with h | ⟨w, hw, hmem⟩
      · exact Or.inl (hl.trans h)
      · exact Or.inr ⟨w, hl.trans hw, List.mem_cons_of_mem _ hmem⟩

/-- Every character surviving the strip after decomposing a lower-table
value is stable (finite check over the table). -/
theorem lowerPairs_stable :
    ∀ p ∈ lowerPairs, ∀ d ∈ (nfdChar p.2).filter (fun x => !isCombining x),
      StableChar d := by decide

/-- Every character surviving the strip of a decomposition from the NFD
table is stable (finite check over the table). -/
theorem nfdPairs_stable :
    ∀ p ∈ nfdPairs, lowerPairs.lookup p.1 = none →
      ∀ d ∈ p.2.filter (fun x => !isCombining x), StableChar d := by decide

/-- Key stability lemma: whatever character enters the pipeline, every
character it contributes past lower-casing, decomposition and the
combining-mark strip is stable. -/
theorem pipeline_chars_stable (c : Char) :
    ∀ d ∈ (nfdChar (jsToLower c)).filter (fun x => !isCombining x), StableChar d := by
  intro d hd
  rcases lookup_rec lowerPairs c with hl | ⟨v, hl, hmem⟩
  · have hc : jsToLower c = c := by unfold jsToLower; rw [hl]; rfl
    rw [hc] at hd
    rcases lookup_rec nfdPairs c with hn | ⟨w, hn, hmemn⟩
    · have hcn : nfdChar c = [c] := by unfold nfdChar; rw [hn]; rfl
      rw [hcn] at hd
      rcases List.mem_filter.mp hd with ⟨hmc, hcomb⟩
      have hdc : d = c := by simpa using hmc
      subst hdc
      exact ⟨hc, hcn, by simpa using hcomb⟩
    · have hcn : nfdChar c = w := by unfold nfdChar; rw [hn]; rfl
      rw [hcn] at hd
      exact nfdPairs_stable (c, w) hmemn hl d hd
  · have hc : jsToLower c = v := by unfold jsToLower; rw [hl]; rfl
    rw [hc] at hd
    exact lowerPairs_stable (c, v) hmem d hd

/-- Members of the right trim are members of the string. -/
theorem mem_of_mem_trimRight {s : Str} {d : Char} (h : d ∈ trimRight s) : d ∈ s := by
  unfold trimRight at h
  have h2 := List.mem_reverse.mp h
  exact List.mem_reverse.mp ((List.dropWhile_sublist isJsWs).mem h2)

/-- Members of the trim are members of the string. -/
theorem mem_of_mem_jsTrim {s : Str} {d : Char} (h : d ∈ jsTrim s) : d ∈ s := by
  unfold jsTrim trimLeft at h
  exact (List.dropWhile_sublist isJsWs).mem (mem_of_mem_trimRight h)

/-- Every character of a normalized string is stable. -/
theorem normalizeText_chars_stable (s : Str) :
    ∀ d ∈ normalizeText s, StableChar d := by
  intro d hd
  unfold normalizeText at hd
  have h2 := mem_of_mem_jsTrim hd
  rcases List.mem_filter.mp h2 with ⟨h3, hcomb⟩
  rcases List.mem_flatMap.mp h3 with ⟨b, hb, hdb⟩
  rcases List.mem_map.mp hb with ⟨c, _, rfl⟩
  exact pipeline_chars_stable c d (List.mem_filter.mpr ⟨hdb, hcomb⟩)

/-- Lower-casing fixes a stable string. -/
theorem stable_map_lower {l : Str} (h : ∀ d ∈ l, StableChar d) :
    l.map jsToLower = l := by
  induction l with
  | nil => rfl
  | cons c rest ih =>
    have hc := h c (List.mem_cons_self c rest)
    simp only [List.map_cons, hc.1,
      ih (fun d hd => h d (List.mem_cons_of_mem c hd))]

/-- NFD decomposition fixes a stable string. -/
theorem stable_flatMap_nfd {l : Str} (h : ∀ d ∈ l, StableChar d) :
    l.flatMap nfdChar = l := by
  induction l with
  | nil => rfl
  | cons c rest ih =>
    have hc := h c (List.mem_cons_self c rest)
    simp only [List.flatMap_cons, hc.2.1,
      ih (fun d hd => h d (List.mem_cons_of_mem c hd))]
    rfl

/-- The combining-mark strip fixes a stable string. -/
theorem stable_filter_comb {l : Str} (h : ∀ d ∈ l, StableChar d) :
    l.filter (fun c => !isCombining c) = l := by
  induction l with
  | nil => rfl
  | cons c rest ih =>
    have hc := h c (List.mem_cons_self c rest)
    simp only [List.filter_cons, hc.2.2,
      ih (fun d hd => h d (List.mem_cons_of_mem c hd))]
    rfl

/-- Dropping a satisfied run twice equals dropping it once. -/
theorem dropWhile_dropWhile (p : Char → Bool) :
    ∀ l : Str, (l.dropWhile p).dropWhile p = l.dropWhile p
  | [] => rfl
  | c :: rest => by
    by_cases h : p c
    · rw [List.dropWhile_cons_of_pos h]
      exact dropWhile_dropWhile p rest
    · rw [List.dropWhile_cons_of_neg h, List.dropWhile_cons_of_neg h]

/-- A prefix of a front-trimmed string is front-trimmed. -/
theorem dropWhile_eq_self_of_prefix (p : Char → Bool) {u v : Str}
    (hu : u.dropWhile p = u) (hv : v <+: u) : v.dropWhile p = v := by
  cases v with
  | nil => rfl
  | cons c v2 =>
    rcases hv with ⟨w, hw⟩
    have hc : p c = false := by
      by_contra hcpos
      have hcp : p c = true := by
        cases hx : p c
        · exact absurd hx hcpos
        · rfl
      have hlen := congrArg List.length hu
      rw [← hw] at hlen
      rw [← hw] at hu
      rw [List.cons_append, List.dropWhile_cons_of_pos hcp] at hu hlen
      have hle := List.Sublist.length_le (List.dropWhile_sublist (l := v2 ++ w) p)
      simp only [List.length_cons, List.length_append] at hlen hle
      omega
    rw [List.dropWhile_cons_of_neg (by simp [hc])]

/-- The dropped run leaves a suffix. -/
theorem dropWhile_suffix_of (p : Char → Bool) : ∀ l : Str, l.dropWhile p <:+ l
  | [] => List.suffix_refl _
  | c :: rest => by
    by_cases h : p c
    · rw [List.dropWhile_cons_of_pos h]
      exact (dropWhile_suffix_of p rest).trans (List.suffix_cons c rest)
    · rw [List.dropWhile_cons_of_neg h]

/-- The right trim of a string is one of its prefixes. -/
theorem trimRight_prefix (s : Str) : trimRight s <+: s := by
  unfold trimRight
  have h2 := dropWhile_suffix_of isJsWs s.reverse
  rw [← List.reverse_prefix] at h2
  simpa using h2

/-- Right trimming twice equals right trimming once. -/
theorem trimRight_trimRight (s : Str) : trimRight (trimRight s) = trimRight s := by
  unfold trimRight
  rw [List.reverse_reverse, dropWhile_dropWhile]

/-- The trim is idempotent. -/
theorem jsTrim_jsTrim (s : Str) : jsTrim (jsTrim s) = jsTrim s := by
  unfold jsTrim
  have hfront : (trimRight (trimLeft s)).dropWhile isJsWs = trimRight (trimLeft s) := by
    apply dropWhile_eq_self_of_prefix isJsWs (u := trimLeft s)
    · exact dropWhile_dropWhile isJsWs s
    · exact trimRight_prefix (trimLeft s)
  have hfront2 : trimLeft (trimRight (trimLeft s)) = trimRight (trimLeft s) := hfront
  show trimRight (trimLeft (trimRight (trimLeft s))) = _
  rw [hfront2, trimRight_trimRight]

/-- Normalizing a string of stable characters only trims it. -/
theorem normalizeText_of_stable {l : Str} (h : ∀ d ∈ l, StableChar d) :
    normalizeText l = jsTrim l := by
  unfold normalizeText
  rw [stable_map_lower h, stable_flatMap_nfd h, stable_filter_comb h]

/-- C5. Text normalization is idempotent: normalizing a normalized
string changes nothing, because every surviving character is fixed by
lower-casing and decomposition, is not a combining mark, and the trim
is idempotent. -/
theorem normalizeText_idempotent (s : Str) :
    normalizeText (normalizeText s) = normalizeText s := by
  rw [normalizeText_of_stable (normalizeText_chars_stable s)]
  show jsTrim (jsTrim (((s.map jsToLower).flatMap nfdChar).filter
      (fun c => !isCombining c))) =
    jsTrim (((s.map jsToLower).flatMap nfdChar).filter (fun c => !isCombining c))
  exact jsTrim_jsTrim _

/-- The default intent is never among the specific intents pushed by
the main extraction path. -/
theorem general_not_mem_mainIntents (n : Str) : "GENERAL" ∉ mainIntents n := by
  have hstep : ∀ (l : List String) (b : Bool) (x : String), "GENERAL" ∉ l →
      x ≠ "GENERAL" → "GENERAL" ∉ l ++ (if b then [x] else []) := by
    intro l b x h1 h2 hm
    rcases List.mem_append.mp hm with h | h
    · exact h1 h
    · cases b
      · simp at h
      · simp at h
        exact h2 h.symm
  have hsingle : ∀ (l : List String) (x : String), "GENERAL" ∉ l →
      x ≠ "GENERAL" → "GENERAL" ∉ l ++ [x] := by
    intro l x h1 h2 hm
    rcases List.mem_append.mp hm with h | h
    · exact h1 h
    · simp at h
      exact h2 h.symm
  have h1 : "GENERAL" ∉ (if admisionTest n then (["INFO_ADMISION"] : List String) else []) := by
    split <;> simp
  have h2 := hstep _ (pensumTest n) "INFO_PENSUM" h1 (by decide)
  have h3 := hstep _ (creditosTest n) "CREDITOS" h2 (by decide)
  have h4gen : ∀ (l : List String), "GENERAL" ∉ l →
      "GENERAL" ∉ (match detectarFacultad n with
        | some _ => if l.contains "INFO_FACULTAD" then l else l ++ ["INFO_FACULTAD"]
        | none =>
          if strIncludes (("facultad").toList) n then l ++ ["INFO_FACULTAD"] else l) := by
    intro l hl
    rcases detectarFacultad n with _ | f
    · by_cases hf : strIncludes (("facultad").toList) n = true
      · rw [if_pos hf]
        exact hsingle _ _ hl (by decide)
      · rw [if_neg hf]
        exact hl
    · by_cases hf : l.contains "INFO_FACULTAD" = true
      · rw [if_pos hf]
        exact hl
      · rw [if_neg hf]
        exact hsingle _ _ hl (by decide)
  exact hstep _ (listarTest n) "LISTAR"
    (hstep _ (programaCarreraTest n) "INFO_PROGRAMA" (h4gen _ h3) (by decide))
    (by decide)

/-- C8. Rule-based extraction is total by construction and always
returns at least one intent; the GENERAL default appears exactly when
no specific intent was set, and never mixed with specific intents. -/
theorem extractEntities_intent_total (pensum : List MateriaPensum) (msg : Str) :
    (extractEntities pensum msg).intenciones ≠ [] ∧
    ((extractEntities pensum msg).intenciones = ["GENERAL"] ∨
      "GENERAL" ∉ (extractEntities pensum msg).intenciones) := by
  by_cases hs : saludoTest (normalizeText msg) = true
  · have he : extractEntities pensum msg = ⟨[], [], [], [], [], ["SALUDO"], msg⟩ := by
      unfold extractEntities
      rw [if_pos hs]
    rw [he]
    exact ⟨by simp, Or.inr (by simp)⟩
  · by_cases hd : despedidaTest (normalizeText msg) = true
    · have he : extractEntities pensum msg = ⟨[], [], [], [], [], ["DESPEDIDA"], msg⟩ := by
        unfold extractEntities
        rw [if_neg hs, if_pos hd]
      rw [he]
      exact ⟨by simp, Or.inr (by simp)⟩
    · have he : (extractEntities pensum msg).intenciones =
          (if mainIntents (normalizeText msg) = [] then ["GENERAL"]
           else mainIntents (normalizeText msg)) := by
        unfold extractEntities
        rw [if_neg hs, if_neg hd]
      rw [he]
      by_cases hi : mainIntents (normalizeText msg) = []
      · rw [if_pos hi]
        exact ⟨by simp, Or.inl rfl⟩
      · rw [if_neg hi]
        exact ⟨hi, Or.inr (general_not_mem_mainIntents _)⟩

/-- What enrichment does to the program slot. -/
theorem enrich_programas_eq (c : SessionCtx) (e : ExtractedEntities) (m : Str) :
    (enrichEntitiesFromContext (some c) e m).programas =
      (match truthyStr c.programa with
       | some pr =>
         if e.programas = [] then
           (if esPreguntaSeguimiento (normalizeText m) ||
               (e.semestres ≠ [] || semestreWordTest (normalizeText m)) then
             e.programas ++ [pr]
           else e.programas)
         else e.programas
       | none => e.programas) := by
  rcases htp : truthyStr c.programa with _ | pr <;>
    rcases htf : truthyStr c.facultad with _ | f <;>
      simp only [enrichEntitiesFromContext, htp, htf] <;>
        split_ifs <;> simp_all

/-- What enrichment does to the faculty slot. -/
theorem enrich_facultades_eq (c : SessionCtx) (e : ExtractedEntities) (m : Str) :
    (enrichEntitiesFromContext (some c) e m).facultades =
      (match truthyStr c.facultad with
       | some f =>
         if e.facultades = [] && esPreguntaSeguimiento (normalizeText m) then
           e.facultades ++ [f]
         else e.facultades
       | none => e.facultades) := by
  rcases htp : truthyStr c.programa with _ | pr <;>
    rcases htf : truthyStr c.facultad with _ | f <;>
      simp only [enrichEntitiesFromContext, htp, htf] <;>
        split_ifs <;> simp_all

/-- C6. Session enrichment injects the remembered program only when the
turn extracted none and the utterance is a follow-up or mentions a
semester; the remembered faculty only when the turn extracted none and
the utterance is a follow-up; and it never replaces or removes an
explicitly extracted program or faculty. -/
theorem enrichment_preserves_explicit_entities (ctx : Option SessionCtx)
    (e : ExtractedEntities) (msg : Str) :
    (e.programas ≠ [] → (enrichEntitiesFromContext ctx e msg).programas = e.programas) ∧
    (e.facultades ≠ [] → (enrichEntitiesFromContext ctx e msg).facultades = e.facultades) ∧
    ((enrichEntitiesFromContext ctx e msg).programas ≠ e.programas →
      e.programas = [] ∧
      (esPreguntaSeguimiento (normalizeText msg) = true ∨ e.semestres ≠ [] ∨
        semestreWordTest (normalizeText msg) = true) ∧
      ∃ c pr, ctx = some c ∧ truthyStr c.programa = some pr ∧
        (enrichEntitiesFromContext ctx e msg).programas = [pr]) ∧
    ((enrichEntitiesFromContext ctx e msg).facultades ≠ e.facultades →
      e.facultades = [] ∧ esPreguntaSeguimiento (normalizeText msg) = true ∧
      ∃ c f, ctx = some c ∧ truthyStr c.facultad = some f ∧
        (enrichEntitiesFromContext ctx e msg).facultades = [f]) := by
  rcases ctx with _ | c
  · exact ⟨fun _ => rfl, fun _ => rfl, fun h => absurd rfl h, fun h => absurd rfl h⟩
  · have hp := enrich_programas_eq c e msg
    have hf := enrich_facultades_eq c e msg
    refine ⟨?_, ?_, ?_, ?_⟩
    · intro hne
      rw [hp]
      rcases truthyStr c.programa with _ | pr
      · rfl
      · exact if_neg hne
    · intro hne
      rw [hf]
      rcases truthyStr c.facultad with _ | f
      · rfl
      · exact if_neg (by simp [hne])
    · intro hch
      rw [hp] at hch
      rcases htp : truthyStr c.programa with _ | pr
      · rw [htp] at hch
        exact absurd rfl hch
      · rw [htp] at hch
        have hch2 : (if e.programas = [] then
            (if (esPreguntaSeguimiento (normalizeText msg) ||
                (decide (e.semestres ≠ []) || semestreWordTest (normalizeText msg))) = true then
              e.programas ++ [pr]
            else e.programas)
          else e.programas) ≠ e.programas := hch
        by_cases h0 : e.programas = []
        · rw [if_pos h0] at hch2
          by_cases hcond : (esPreguntaSeguimiento (normalizeText msg) ||
              (decide (e.semestres ≠ []) || semestreWordTest (normalizeText msg))) = true
          · refine ⟨h0, ?_, c, pr, rfl, htp, ?_⟩
            · simpa [Bool.or_eq_true, decide_eq_true_eq, or_assoc] using hcond
            · rw [hp, htp]
              show (if e.programas = [] then
                  (if (esPreguntaSeguimiento (normalizeText msg) ||
                      (decide (e.semestres ≠ []) || semestreWordTest (normalizeText msg))) = true then
                    e.programas ++ [pr]
                  else e.programas)
                else e.programas) = [pr]
              rw [if_pos h0, if_pos hcond, h0]
              rfl
          · rw [if_neg hcond] at hch2
            exact absurd rfl hch2
        · rw [if_neg h0] at hch2
          exact absurd rfl hch2
    · intro hch
      rw [hf] at hch
      rcases htf : truthyStr c.facultad with _ | f
      · rw [htf] at hch
        exact absurd rfl hch
      · rw [htf] at hch
        have hch2 : (if (decide (e.facultades = []) &&
            esPreguntaSeguimiento (normalizeText msg)) = true then
              e.facultades ++ [f]
            else e.facultades) ≠ e.facultades := hch
        by_cases hcond : (decide (e.facultades = []) &&
            esPreguntaSeguimiento (normalizeText msg)) = true
        · have hand := hcond
          rw [Bool.and_eq_true] at hand
          have h0 : e.facultades = [] := of_decide_eq_true hand.1
          refine ⟨h0, hand.2, c, f, rfl, htf, ?_⟩
          rw [hf, htf]
          show (if (decide (e.facultades = []) &&
              esPreguntaSeguimiento (normalizeText msg)) = true then
            e.facultades ++ [f] else e.facultades) = [f]
          rw [if_pos hcond, h0]
          rfl
        · rw [if_neg hcond] at hch2
          exact absurd rfl hch2

/-- C9. Updating the session only overwrites a field when the turn
carries a new value for it: other sessions are untouched, and for the
updated session the program, faculty and last topic each keep their old
value when the entities carry none (an intent list that is empty or
contains GENERAL never moves the topic), and take the first extracted
value when one is present. -/
theorem updateSessionContext_frame (store : Str → Option SessionCtx)
    (sid : Str) (e : ExtractedEntities) :
    (∀ s, s ≠ sid → updateSessionContext store sid e s = store s) ∧
    ∃ c, updateSessionContext store sid e sid = some c ∧
      (e.programas = [] → c.programa = ((store sid).getD ⟨none, none, none⟩).programa) ∧
      (e.facultades = [] → c.facultad = ((store sid).getD ⟨none, none, none⟩).facultad) ∧
      ((∀ i ∈ e.intenciones, i = "GENERAL") →
        c.ultimoTema = ((store sid).getD ⟨none, none, none⟩).ultimoTema) ∧
      (e.programas ≠ [] → c.programa = e.programas.head?) ∧
      (e.facultades ≠ [] → c.facultad = e.facultades.head?) := by
  constructor
  · intro s hs
    exact if_neg hs
  · refine ⟨_, if_pos rfl, ?_, ?_, ?_, ?_, ?_⟩
    · intro hp
      rcases he : e.programas with _ | ⟨p, ps⟩ <;>
        rcases hf : e.facultades with _ | ⟨f, fs⟩ <;>
          by_cases hg : (decide (e.intenciones ≠ []) && !(e.intenciones.contains "GENERAL")) = true <;>
            rcases hi : e.intenciones with _ | ⟨i, is2⟩ <;>
              simp_all [updateSessionContext] <;> split_ifs <;> simp_all
    · intro hp
      rcases he : e.programas with _ | ⟨p, ps⟩ <;>
        rcases hf : e.facultades with _ | ⟨f, fs⟩ <;>
          by_cases hg : (decide (e.intenciones ≠ []) && !(e.intenciones.contains "GENERAL")) = true <;>
            rcases hi : e.intenciones with _ | ⟨i, is2⟩ <;>
              simp_all [updateSessionContext] <;> split_ifs <;> simp_all
    · intro hp
      have hg : ¬ (decide (e.intenciones ≠ []) && !(e.intenciones.contains "GENERAL")) = true := by
        rcases hi : e.intenciones with _ | ⟨i, is2⟩
        · simp
        · have : i = "GENERAL" := hp i (by rw [hi]; exact List.mem_cons_self _ _)
          subst this
          simp [hi]
      rcases he : e.programas with _ | ⟨p, ps⟩ <;>
        rcases hf : e.facultades with _ | ⟨f, fs⟩ <;>
          simp_all [updateSessionContext] <;> split_ifs <;> simp_all
    · intro hp
      rcases he : e.programas with _ | ⟨p, ps⟩ <;>
        rcases hf : e.facultades with _ | ⟨f, fs⟩ <;>
          by_cases hg : (decide (e.intenciones ≠ []) && !(e.intenciones.contains "GENERAL")) = true <;>
            rcases hi : e.intenciones with _ | ⟨i, is2⟩ <;>
              simp_all [updateSessionContext] <;> split_ifs <;> simp_all
    · intro hp
      rcases he : e.programas with _ | ⟨p, ps⟩ <;>
        rcases hf : e.facultades with _ | ⟨f, fs⟩ <;>
          by_cases hg : (decide (e.intenciones ≠ []) && !(e.intenciones.contains "GENERAL")) = true <;>
            rcases hi : e.intenciones with _ | ⟨i, is2⟩ <;>
              simp_all [updateSessionContext] <;> split_ifs <;> simp_all

/-- Witness: an all-GENERAL turn with no entities leaves a fresh
session record untouched. -/
theorem updateSessionContext_frame_witness :
    ∃ c, updateSessionContext (fun _ => none) (("s1").toList)
        ⟨[], [], [], [], [], ["GENERAL"], ("hola").toList⟩ (("s1").toList) = some c ∧
      c.programa = none ∧ c.ultimoTema = none := by
  obtain ⟨hframe, c, hc, h1, h2, h3, h4, h5⟩ :=
    updateSessionContext_frame (fun _ => none) (("s1").toList)
      ⟨[], [], [], [], [], ["GENERAL"], ("hola").toList⟩
  exact ⟨c, hc, h1 rfl, h3 (by decide)⟩

/-- The seen-set filter yields pairwise-distinct keys and never emits a
key it has already seen. -/
theorem dedupeByKeyAux_sound (seen : List Str) :
    ∀ l : List MateriaPensum,
      (dedupeByKeyAux seen l).Pairwise (fun a b => materiaKey a ≠ materiaKey b) ∧
      ∀ m ∈ dedupeByKeyAux seen l, materiaKey m ∉ seen
  | [] => ⟨List.Pairwise.nil, by intro m hm; cases hm⟩
  | m :: rest => by
    unfold dedupeByKeyAux
    by_cases hseen : materiaKey m ∈ seen
    · rw [if_pos hseen]
      exact dedupeByKeyAux_sound seen rest
    · rw [if_neg hseen]
      obtain ⟨hpw, hnot⟩ := dedupeByKeyAux_sound (materiaKey m :: seen) rest
      refine ⟨List.Pairwise.cons ?_ hpw, ?_⟩
      · intro b hb
        have := hnot b hb
        intro heq
        exact this (heq ▸ List.mem_cons_self _ _)
      · intro x hx
        rcases List.mem_cons.mp hx with rfl | hx2
        · exact hseen
        · exact fun hin => hnot x hx2 (List.mem_cons_of_mem _ hin)

/-- The deduplicated curriculum rows have pairwise-distinct keys. -/
theorem dedupeMaterias_pairwise (ms : List MateriaPensum) :
    (dedupeMaterias ms).Pairwise (fun a b => materiaKey a ≠ materiaKey b) :=
  (dedupeByKeyAux_sound [] ms).1

/-- C10. When a program was resolved and no schedule track was given,
the curriculum rows placed into the academic context contain no two
rows with the same (program, semester, subject, track) key, and every
row carries the schedule track of the first row left after
deduplication. -/
theorem contextMaterias_dedup_single_jornada (ms : List MateriaPensum)
    (e : ExtractedEntities) (hp : e.programas ≠ []) (hj : e.jornadas = []) :
    (contextMaterias ms e).Pairwise (fun a b => materiaKey a ≠ materiaKey b) ∧
    ∀ mp ∈ contextMaterias ms e, ∀ m0, (dedupeMaterias ms).head? = some m0 →
      mp.jornada = m0.jornada := by
  unfold contextMaterias
  rw [if_neg hp, hj]
  rcases hd : dedupeMaterias ms with _ | ⟨m0, rest⟩
  · exact ⟨List.Pairwise.nil, by intro mp hm; cases hm⟩
  · constructor
    · exact List.Pairwise.sublist (List.filter_sublist _) (hd ▸ dedupeMaterias_pairwise ms)
    · intro mp hm m1 hm1
      have hm0 : m1 = m0 := by
        simp only [List.head?_cons, Option.some_inj] at hm1
        exact hm1.symm
      have hm2 : mp ∈ (m0 :: rest).filter (fun m => decide (m.jornada = m0.jornada)) := hm
      have h3 := (List.mem_filter.mp hm2).2
      rw [hm0]
      simpa using h3

/-- Witness: the curriculum invariant applied to concrete rows with a
duplicate and a second schedule track. -/
theorem contextMaterias_dedup_single_jornada_witness :
    (contextMaterias c10rows c10e).Pairwise (fun a b => materiaKey a ≠ materiaKey b) ∧
    ∀ mp ∈ contextMaterias c10rows c10e, ∀ m0,
      (dedupeMaterias c10rows).head? = some m0 → mp.jornada = m0.jornada :=
  contextMaterias_dedup_single_jornada c10rows c10e (by decide) rfl

/-- For the compound greeting no program-table pattern fires, so the
keyword lookup reduces to the fallback search over the pensum data. -/
theorem buscar_none_hola_buenos_dias (pensum : List MateriaPensum)
    (h : ∀ mp ∈ pensum,
      strIncludes (normalizeText (normalizeText (("hola buenos días").toList)))
        (normalizeText mp.programa) = false) :
    buscarProgramaPorKeyword pensum
      (normalizeText (("hola buenos días").toList)) = none := by
  have hkm : keywordMap.find? (fun row => row.1.any (kwTest
      (normalizeText (normalizeText (("hola buenos días").toList))))) = none := by
    decide
  show (match keywordMap.find? (fun row => row.1.any (kwTest
      (normalizeText (normalizeText (("hola buenos días").toList))))) with
    | some row => some row.2
    | none =>
      (dedupList (pensum.map (fun m => m.programa))).find?
        (fun p => strIncludes (normalizeText (normalizeText (("hola buenos días").toList)))
          (normalizeText p))) = none
  rw [hkm]
  apply List.find?_eq_none.mpr
  intro p hp2
  rcases List.mem_map.mp (mem_of_mem_dedupList hp2) with ⟨mp, hmp, rfl⟩
  exact ne_true_of_eq_false (h mp hmp)

/-- C4 (amended). The greeting pattern is anchored to a single greeting
token, so the compound utterance "hola buenos días" does not match it
and falls through to a GENERAL record with empty entity lists, while
the single greetings "hola" and "buenos días" do return exactly the
SALUDO intent with empty entity lists. -/
theorem greeting_extraction_amended (pensum : List MateriaPensum)
    (h : ∀ mp ∈ pensum,
      strIncludes (normalizeText (normalizeText (("hola buenos días").toList)))
        (normalizeText mp.programa) = false) :
    extractEntities pensum (("hola buenos días").toList) =
      ⟨[], [], [], [], [], ["GENERAL"], ("hola buenos días").toList⟩ ∧
    extractEntities pensum (("hola").toList) =
      ⟨[], [], [], [], [], ["SALUDO"], ("hola").toList⟩ ∧
    extractEntities pensum (("buenos días").toList) =
      ⟨[], [], [], [], [], ["SALUDO"], ("buenos días").toList⟩ := by
  refine ⟨?_, ?_, ?_⟩
  · have hb := buscar_none_hola_buenos_dias pensum h
    simp only [extractEntities]
    rw [if_neg (by decide), if_neg (by decide), hb]
    decide
  · unfold extractEntities
    rw [if_pos (by decide : saludoTest (normalizeText (("hola").toList)) = true)]
  · unfold extractEntities
    rw [if_pos (by decide : saludoTest (normalizeText (("buenos días").toList)) = true)]

/-- Witness: the amended greeting behaviour at the sample pensum, the
data hypothesis discharged by evaluation. -/
theorem greeting_extraction_amended_witness :
    extractEntities samplePensum (("hola buenos días").toList) =
      ⟨[], [], [], [], [], ["GENERAL"], ("hola buenos días").toList⟩ ∧
    extractEntities samplePensum (("hola").toList) =
      ⟨[], [], [], [], [], ["SALUDO"], ("hola").toList⟩ ∧
    extractEntities samplePensum (("buenos días").toList) =
      ⟨[], [], [], [], [], ["SALUDO"], ("buenos días").toList⟩ :=
  greeting_extraction_amended samplePensum (by decide)

/-- Counterexample to C4 as stated: for the utterance
"hola buenos días" the extractor returns the GENERAL intent, not
SALUDO — the anchored greeting pattern requires the entire message to
be one greeting token plus trailing punctuation, which the compound
greeting is not. -/
theorem greeting_extraction_counterexample :
    (extractEntities samplePensum (("hola buenos días").toList)).intenciones =
      ["GENERAL"] ∧
    (extractEntities samplePensum (("hola buenos días").toList)).intenciones ≠
      ["SALUDO"] := by
  set_option maxRecDepth 100000 in decide

/-- Witness: an explicitly extracted program survives enrichment at a
concrete context and turn. -/
theorem enrichment_preserves_explicit_entities_witness :
    (enrichEntitiesFromContext
      (some ⟨some (("INGENIERIA DE SISTEMAS").toList), none, none⟩)
      ⟨[], [("DERECHO").toList], [], [], [], ["INFO_PROGRAMA"],
        ("el programa de derecho").toList⟩
      (("el programa de derecho").toList)).programas = [("DERECHO").toList] :=
  (enrichment_preserves_explicit_entities
    (some ⟨some (("INGENIERIA DE SISTEMAS").toList), none, none⟩)
    ⟨[], [("DERECHO").toList], [], [], [], ["INFO_PROGRAMA"],
      ("el programa de derecho").toList⟩
    (("el programa de derecho").toList)).1 (by decide)
